import Mathlib

/-!
# FrameCapturer: the WebM encoding pipeline

A shallow embedding of `Plugin/Encoder/fcVPXEncoder.cpp` and
`Plugin/Encoder/fcWebMFile.cpp`.

* `fcTime` (a C++ `double` holding seconds) is the rational value of a finite IEEE 754
  binary64 number; the result of an operation on doubles is the exact result rounded by
  `roundDouble` (round to nearest, ties to even).
* Pointers are integer addresses, `0` being `nullptr`.
* `int`, `uint32_t`, `uint64_t`, `size_t` are integers reduced modulo `2^w` explicitly.
* The external collaborators (libvpx, the audio codec, the graphics device) are
  functions supplied in an `Env`; a codec answers from the history of the calls made to it.
* Threads are modelled by interleaving: every thread owns a program position and an
  `Event` lets one thread take one atomic step.
-/

namespace FrameCapturer

/-! ## Numeric conversions -/

/-- Timestamps in seconds (`fcTime`, a C++ `double`): the rational value of a finite IEEE 754
binary64 number.  An operation on doubles yields `roundDouble` of its exact result. -/
abbrev fcTime := ℚ

/-- Rounding to the nearest integer, a tie going to the even one. -/
def roundHalfEven (q : ℚ) : Int :=
  let n := ⌊q⌋
  let r := q - n
  if r < 1 / 2 then n
  else if 1 / 2 < r then n + 1
  else if n % 2 = 0 then n else n + 1

/-- The exponent of the unit in the last place of the binary64 numbers of the magnitude of
`x`: 52 below the binary exponent of `x` (53 significant bits), and at least -1074 (the
subnormal range). -/
def ulpExponent (x : ℚ) : Int := max (Int.log 2 |x| - 52) (-1074)

/-- The IEEE 754 binary64 number nearest to `x`, ties to even: the value a `double`
operation with exact result `x` returns in the default rounding mode.  Overflow to an
infinity (beyond about `1.8 * 10^308`) and NaN are not represented. -/
def roundDouble (x : ℚ) : ℚ :=
  roundHalfEven (x / 2 ^ ulpExponent x) * 2 ^ ulpExponent x

/-- Addresses, as integers; `0` is `nullptr`.  Pointer arithmetic is integer addition. -/
abbrev Ptr := Int

/-- Truncation toward zero, the rounding of a C++ floating-point to integer conversion. -/
def truncQ (x : ℚ) : Int := Int.tdiv x.num (x.den : Int)

/-- The conversion `uint32_t(x)`: truncation toward zero, then the low 32 bits.  For a value
outside `[0, 2^32)` ISO C++ leaves the conversion undefined; the reduction modulo `2^32` is
what the x86-64 truncating conversion yields. -/
def toUint32 (x : ℚ) : Nat := (truncQ x % 4294967296).toNat

/-- The conversion `uint64_t(x)`: truncation toward zero, then the low 64 bits. -/
def toUint64 (x : ℚ) : Nat := (truncQ x % 18446744073709551616).toNat

/-- Reinterpretation of an integer as a 32-bit signed `int` (two's complement wrap). -/
def toInt32 (n : Int) : Int := (n + 2147483648) % 4294967296 - 2147483648

/-- Reinterpretation of an integer as a 64-bit signed integer (two's complement wrap). -/
def toInt64 (n : Int) : Int :=
  (n + 9223372036854775808) % 18446744073709551616 - 9223372036854775808

/-- Reinterpretation of an integer as a `size_t` (64 bits). -/
def toSizeT (n : Int) : Nat := (n % 18446744073709551616).toNat

/-! ## `fcI420.h` -/

/-- The three plane pointers of a planar YUV 4:2:0 image (`fcI420Data`). -/
structure fcI420Data where
  y : Ptr
  u : Ptr
  v : Ptr
deriving DecidableEq

/-! ## `fcVPXEncoder.cpp` -/

/-- One element of `fcVPXFrame::blocks`: size, presentation time, key-frame flag. -/
structure fcVPXBlock where
  size : Int
  timestamp : Nat
  keyframe : Nat
deriving DecidableEq

/-- An encoded frame (`fcVPXFrame`, alias `fcWebMVideoFrame`): the concatenated payload and
its blocks. -/
structure fcVPXFrame where
  data : List Nat
  blocks : List fcVPXBlock
deriving DecidableEq

/-- Modelled from the spec: the method `fcVPXFrame::clear`, declared in a header that is not
among the sources; the frame is emptied for reuse. -/
def fcVPXFrame.clear (_self : fcVPXFrame) : fcVPXFrame := { data := [], blocks := [] }

/-- The arguments of one `vpx_codec_encode` invocation (the deadline apart, always `0`). -/
structure VpxCall where
  img : Option fcI420Data
  pts : Int
  duration : Nat
  flags : Nat
deriving DecidableEq

/-- A packet yielded by `vpx_codec_get_cx_data`. -/
inductive VpxPkt where
  | frame (buf : List Nat) (pts : Int) (flags : Nat)
  | other
deriving DecidableEq

/-- The answer of libvpx to one `vpx_codec_encode` call: whether `res == VPX_CODEC_OK`, and
the packets the following `vpx_codec_get_cx_data` iteration yields. -/
structure VpxResult where
  ok : Bool
  pkts : List VpxPkt
deriving DecidableEq

/-- The configuration record `fcVPXEncoderConfig`. -/
structure fcVPXEncoderConfig where
  width : Int
  height : Int
  target_bitrate : Int
deriving DecidableEq

/-- The selector `fcWebMVideoEncoder`. -/
inductive fcWebMVideoEncoder where
  | VP8
  | VP9
  | unknown
deriving DecidableEq

/-- The state of an `fcVPXEncoder`.  The codec context `m_vpx_ctx` is represented by the
calls made to it so far, the image descriptor `m_vpx_img` by its three plane pointers. -/
structure fcVPXEncoder where
  m_conf : fcVPXEncoderConfig
  m_vpx_ctx : List VpxCall
  m_vpx_img : fcI420Data
  m_prev_timestamp : fcTime
  m_matroska_codec_id : String
deriving DecidableEq

/-- The constructor `fcVPXEncoder::fcVPXEncoder`. -/
def fcVPXEncoder.create (conf : fcVPXEncoderConfig) (encoder : fcWebMVideoEncoder) :
    fcVPXEncoder :=
  { m_conf := conf
    m_vpx_ctx := []
    m_vpx_img := { y := 0, u := 0, v := 0 }
    m_prev_timestamp := 0
    m_matroska_codec_id :=
      match encoder with
      | .VP8 => "V_VP8"
      | .VP9 => "V_VP9"
      | .unknown => "" }

/-- The constant `VPX_EFLAG_FORCE_KF`. -/
def VPX_EFLAG_FORCE_KF : Nat := 1

/-- The constant `VPX_FRAME_IS_KEY`. -/
def VPX_FRAME_IS_KEY : Nat := 1

/-- The method `fcVPXEncoder::gatherFrameData`: append every frame packet to `dst`. -/
def gatherFrameData (pkts : List VpxPkt) (dst : fcVPXFrame) : fcVPXFrame :=
  pkts.foldl
    (fun d pkt =>
      match pkt with
      | .frame buf pts flags =>
          { data := d.data ++ buf
            blocks := d.blocks ++
              [{ size := toInt32 buf.length
                 timestamp := (pts % 18446744073709551616).toNat
                 keyframe := flags &&& VPX_FRAME_IS_KEY }] }
      | .other => d)
    dst

/-- The duration computed at lines 93-96 of `fcVPXEncoder::encode`: the difference of the
two doubles is rounded, its product with `1000000000.0` is rounded, and the result is
converted to `uint32_t`. -/
def encodeDuration (prev timestamp : fcTime) : Nat :=
  let duration := toUint32 (roundDouble (roundDouble (timestamp - prev) * 1000000000))
  if duration = 0 then 1000000000 / 60 else duration

/-- The method `fcVPXEncoder::encode`; `codec` is libvpx, answering from the call history. -/
def fcVPXEncoder.encode (codec : List VpxCall → VpxResult) (self : fcVPXEncoder)
    (dst : fcVPXFrame) (image : fcI420Data) (timestamp : fcTime) (force_keyframe : Bool) :
    Bool × fcVPXEncoder × fcVPXFrame :=
  let vpx_time := toUint64 (roundDouble (timestamp * 1000000000))
  let vpx_flags : Nat := 0
  let duration := encodeDuration self.m_prev_timestamp timestamp
  let vpx_flags := if force_keyframe then vpx_flags ||| VPX_EFLAG_FORCE_KF else vpx_flags
  let call : VpxCall :=
    { img := some image, pts := toInt64 vpx_time, duration := duration, flags := vpx_flags }
  let self : fcVPXEncoder :=
    { self with
      m_prev_timestamp := timestamp
      m_vpx_img := image
      m_vpx_ctx := self.m_vpx_ctx ++ [call] }
  let res := codec self.m_vpx_ctx
  if !res.ok then (false, self, dst)
  else (true, self, gatherFrameData res.pkts dst)

/-- The method `fcVPXEncoder::flush`. -/
def fcVPXEncoder.flush (codec : List VpxCall → VpxResult) (self : fcVPXEncoder)
    (dst : fcVPXFrame) : Bool × fcVPXEncoder × fcVPXFrame :=
  let call : VpxCall := { img := none, pts := -1, duration := 0, flags := 0 }
  let self : fcVPXEncoder := { self with m_vpx_ctx := self.m_vpx_ctx ++ [call] }
  let res := codec self.m_vpx_ctx
  if !res.ok then (false, self, dst)
  else (true, self, gatherFrameData res.pkts dst)

/-- The duration handed to the codec by the most recent `vpx_codec_encode` call. -/
def fcVPXEncoder.lastDuration (self : fcVPXEncoder) : Option Nat :=
  self.m_vpx_ctx.getLast?.map (·.duration)

/-- The presentation time handed to the codec by the most recent `vpx_codec_encode` call. -/
def fcVPXEncoder.lastPts (self : fcVPXEncoder) : Option Int :=
  self.m_vpx_ctx.getLast?.map (·.pts)

/-! ## `fcWebMFile.cpp`: data -/

/-- The enumeration `fcPixelFormat`, as far as `fcWebMFile.cpp` distinguishes its values. -/
inductive fcPixelFormat where
  | I420
  | RGBAu8
  | other (code : Nat)
deriving DecidableEq

/-- A pooled buffer, the target of a `VideoBufferPtr` or `AudioBufferPtr`: its identity, the
address of its storage (`data()`) and its current size (`size()`). -/
structure Buffer where
  id : Nat
  data : Ptr
  size : Nat
deriving DecidableEq

/-- The method `Buffer::resize`.  The model keeps the storage address of a buffer fixed. -/
def Buffer.resize (self : Buffer) (n : Nat) : Buffer := { self with size := n }

/-- The class template `ResourceQueue<T>`. -/
structure ResourceQueue (T : Type) where
  m_resources : List T
deriving DecidableEq

/-- The method `ResourceQueue::push`. -/
def ResourceQueue.push {T : Type} (self : ResourceQueue T) (v : T) : ResourceQueue T :=
  { m_resources := self.m_resources ++ [v] }

/-- One round of the loop of `ResourceQueue::pop`: with a resource at hand the last one is
taken and returned; with none (`none`) the caller sleeps a millisecond and tries again. -/
def ResourceQueue.pop {T : Type} (self : ResourceQueue T) : Option (T × ResourceQueue T) :=
  match self.m_resources.getLast? with
  | some ret => some (ret, { m_resources := self.m_resources.dropLast })
  | none => none

/-- The selector `fcWebMAudioEncoder`. -/
inductive fcWebMAudioEncoder where
  | Vorbis
  | Opus
  | unknown
deriving DecidableEq

/-- The fields of `fcWebMConfig` read by `fcWebMFile.cpp`. -/
structure fcWebMConfig where
  video : Bool
  audio : Bool
  video_encoder : fcWebMVideoEncoder
  audio_encoder : fcWebMAudioEncoder
  video_width : Int
  video_height : Int
  video_bitrate : Int
  audio_sample_rate : Int
  audio_num_channels : Int
  audio_bitrate : Int
deriving DecidableEq

/-- Modelled from the spec: the encoded audio frame `fcWebMAudioFrame`, whose declaration is
not among the sources; an ordered sequence of blocks plus the concatenated payload. -/
structure fcWebMAudioFrame where
  data : List Nat
  blocks : List fcVPXBlock
deriving DecidableEq

/-- Modelled from the spec: `fcWebMAudioFrame::clear`, the frame is emptied for reuse. -/
def fcWebMAudioFrame.clear (_self : fcWebMAudioFrame) : fcWebMAudioFrame :=
  { data := [], blocks := [] }

/-- A call made to the audio encoder. -/
inductive AudioCall where
  | encode (samples : Ptr) (num_samples : Nat)
  | flush
deriving DecidableEq

/-- Modelled from the spec: the audio encoder behind `fcIWebMAudioEncoder` (Vorbis or Opus),
whose source is not among the sources; represented by the calls made to it so far and the
codec identifier it exposes to a writer. -/
structure fcAudioEncoder where
  calls : List AudioCall
  codec_id : String
deriving DecidableEq

/-- A call of `fcIGraphicsDevice::readTexture`. -/
structure ReadCall where
  o_buf : Ptr
  bufsize : Nat
  tex : Ptr
  width : Int
  height : Int
  format : fcPixelFormat
deriving DecidableEq

/-- The scratch image `fcI420Image`: the dimensions it was last resized to and the plane
pointers its `data()` returns. -/
structure fcI420Image where
  width : Int
  height : Int
  planes : fcI420Data
deriving DecidableEq

/-- The method `fcI420Image::resize`. -/
def fcI420Image.resize (self : fcI420Image) (width height : Int) : fcI420Image :=
  { self with width := width, height := height }

/-- A call of one of the pixel conversion routines. -/
inductive ConvCall where
  | fcRGBA2I420 (rgba_pixels : Ptr) (width height : Int)
  | fcConvertPixelFormat (dst : Ptr) (src : Ptr) (srcfmt : fcPixelFormat) (num : Int)
deriving DecidableEq

/-- A call received by a writer (`fcIWebMWriter`). -/
inductive WriterCall where
  | setVideoEncoderInfo (codec_id : String)
  | setAudioEncoderInfo (codec_id : String)
  | addVideoFrame (frame : fcVPXFrame)
  | addAudioFrame (frame : fcWebMAudioFrame)
deriving DecidableEq

/-- An element of `m_writers`: its registration index and the stream it is bound to. -/
structure Writer where
  id : Nat
  stream : Nat
deriving DecidableEq

/-- The closures stored in `m_video_tasks`: the lambda of `addVideoFrameTexture` and
`addVideoFramePixels` (the two have the same body and captures), and that of `flushVideo`. -/
inductive VideoTask where
  | frame (buf : Buffer) (fmt : fcPixelFormat) (timestamp : fcTime)
  | flush
deriving DecidableEq

/-- The closures stored in `m_audio_tasks`: the lambda of `addAudioFrame` and that of
`flushAudio`. -/
inductive AudioTask where
  | frame (buf : Buffer)
  | flush
deriving DecidableEq

/-- The buffer a video closure has captured, if any. -/
def VideoTask.buffer : VideoTask → List Buffer
  | .frame buf _ _ => [buf]
  | .flush => []

/-- The buffer an audio closure has captured, if any. -/
def AudioTask.buffer : AudioTask → List Buffer
  | .frame buf => [buf]
  | .flush => []

/-- The position of a worker thread inside `processVideoTasks` / `processAudioTasks`. -/
inductive Worker (T : Type) where
  /-- The thread was never started (media type disabled). -/
  | absent
  /-- About to evaluate the outer `while (!m_stop)`. -/
  | loopTop
  /-- Holding the mutex, at the inner wait loop. -/
  | locked
  /-- Mutex released, `task` dequeued, about to call `task()`. -/
  | running (task : T)
  /-- The thread function has returned. -/
  | exited
deriving DecidableEq

/-- A producer thread inside an ingestion call, between `pop()` and the end of the call. -/
inductive Producer where
  | texture (buf : Buffer) (tex : Ptr) (fmt : fcPixelFormat) (timestamp : fcTime)
  | pixels (buf : Buffer) (pixels : Ptr) (fmt : fcPixelFormat) (timestamp : fcTime)
  | audio (buf : Buffer) (samples : Ptr) (num_samples : Int) (timestamp : fcTime)
deriving DecidableEq

/-- The video buffer a producer holds, if any. -/
def Producer.videoBuffer : Producer → List Buffer
  | .texture buf _ _ _ => [buf]
  | .pixels buf _ _ _ => [buf]
  | .audio _ _ _ _ => []

/-- The audio buffer a producer holds, if any. -/
def Producer.audioBuffer : Producer → List Buffer
  | .texture _ _ _ _ => []
  | .pixels _ _ _ _ => []
  | .audio buf _ _ _ => [buf]

/-- The task a worker is about to run, if it is at that position. -/
def Worker.task {T : Type} : Worker T → List T
  | .running task => [task]
  | _ => []

/-- The external collaborators. -/
structure Env where
  /-- The codec libvpx: the answer to the latest call of a call history. -/
  vpx_codec_encode : List VpxCall → VpxResult
  /-- The audio codec: from the call history and the frame, the result and the new frame. -/
  audio_codec : List AudioCall → fcWebMAudioFrame → Bool × fcWebMAudioFrame
  /-- The graphics device: the result of the latest `readTexture` of a call history. -/
  readTexture : List ReadCall → Bool
  /-- The function `fcGetPixelSize`. -/
  fcGetPixelSize : fcPixelFormat → Nat
  /-- The storage address of the pooled buffer with a given identity. -/
  buffer_data : Nat → Ptr
  /-- The plane pointers of the scratch image `m_i420_image`. -/
  i420_planes : fcI420Data
  /-- The storage address of the scratch buffer `m_rgba_image`. -/
  rgba_data : Ptr

/-- The state of an `fcWebMContext`, followed by the history kept for the proofs and the
positions of the threads inside it. -/
structure fcWebMContext where
  m_conf : fcWebMConfig
  /-- Whether `m_gdev` is non-null. -/
  m_gdev : Bool
  m_stop : Bool
  m_writers : List Writer
  m_video_tasks : List VideoTask
  m_video_thread : Worker VideoTask
  m_video_encoder : Option fcVPXEncoder
  m_video_buffers : ResourceQueue Buffer
  m_rgba_image : Buffer
  m_i420_image : fcI420Image
  m_video_frame : fcVPXFrame
  m_audio_tasks : List AudioTask
  m_audio_thread : Worker AudioTask
  m_audio_encoder : Option fcAudioEncoder
  m_audio_buffers : ResourceQueue Buffer
  m_audio_frame : fcWebMAudioFrame
  /-- History: the producers currently inside an ingestion call, past `pop()`. -/
  producers : List Producer
  /-- History: every call made on a writer, oldest first, with the writer's index. -/
  calls : List (Nat × WriterCall)
  /-- History: every pixel conversion performed, oldest first. -/
  conversions : List ConvCall
  /-- History: every `readTexture` call made on the graphics device, oldest first. -/
  reads : List ReadCall
  /-- History: every task handed to `kickVideoTask`, oldest first. -/
  video_kicked : List VideoTask
  /-- History: every task the video worker has run to completion, oldest first, each with
  the writer calls it made. -/
  video_done : List (VideoTask × List (Nat × WriterCall))
  /-- History: every task handed to `kickAudioTask`, oldest first. -/
  audio_kicked : List AudioTask
  /-- History: every task the audio worker has run to completion, oldest first, each with
  the writer calls it made. -/
  audio_done : List (AudioTask × List (Nat × WriterCall))
deriving DecidableEq

/-! ## `fcWebMFile.cpp`: operations -/

/-- The constructor `fcWebMContext::fcWebMContext`.  `gd` tells whether a graphics device
was passed.  The video pool receives buffers `0..3`, the audio pool buffers `4..7`. -/
def fcWebMContext.create (env : Env) (conf : fcWebMConfig) (gd : Bool) : fcWebMContext :=
  let pool (base : Nat) : ResourceQueue Buffer :=
    (List.range 4).foldl
      (fun q i => q.push { id := base + i, data := env.buffer_data (base + i), size := 0 })
      { m_resources := [] }
  { m_conf := conf
    m_gdev := gd
    m_stop := false
    m_writers := []
    m_video_tasks := []
    m_video_thread := if conf.video then .loopTop else .absent
    m_video_encoder :=
      if conf.video then
        let econf : fcVPXEncoderConfig :=
          { width := conf.video_width
            height := conf.video_height
            target_bitrate := conf.video_bitrate }
        match conf.video_encoder with
        | .VP8 => some (fcVPXEncoder.create econf .VP8)
        | .VP9 => some (fcVPXEncoder.create econf .VP9)
        | .unknown => none
      else none
    m_video_buffers := if conf.video then pool 0 else { m_resources := [] }
    m_rgba_image := { id := 8, data := env.rgba_data, size := 0 }
    m_i420_image := { width := 0, height := 0, planes := env.i420_planes }
    m_video_frame := { data := [], blocks := [] }
    m_audio_tasks := []
    m_audio_thread := if conf.audio then .loopTop else .absent
    m_audio_encoder :=
      if conf.audio then
        match conf.audio_encoder with
        | .Vorbis => some { calls := [], codec_id := "A_VORBIS" }
        | .Opus => some { calls := [], codec_id := "A_OPUS" }
        | .unknown => none
      else none
    m_audio_buffers := if conf.audio then pool 4 else { m_resources := [] }
    m_audio_frame := { data := [], blocks := [] }
    producers := []
    calls := []
    conversions := []
    reads := []
    video_kicked := []
    video_done := []
    audio_kicked := []
    audio_done := [] }

/-- The method `fcWebMContext::eachStreams`, applied to a body that makes the call `b` on
its writer: the writers are visited in the order of `m_writers`. -/
def fcWebMContext.eachStreams (self : fcWebMContext) (b : WriterCall) : fcWebMContext :=
  { self with calls := self.calls ++ self.m_writers.map (fun s => (s.id, b)) }

/-- The method `fcWebMContext::addOutputStream`. -/
def fcWebMContext.addOutputStream (self : fcWebMContext) (s : Nat) : fcWebMContext :=
  let writer : Writer := { id := self.m_writers.length, stream := s }
  let self :=
    match self.m_video_encoder with
    | some e =>
        { self with
          calls := self.calls ++
            [(writer.id, WriterCall.setVideoEncoderInfo e.m_matroska_codec_id)] }
    | none => self
  let self :=
    match self.m_audio_encoder with
    | some e =>
        { self with
          calls := self.calls ++ [(writer.id, WriterCall.setAudioEncoderInfo e.codec_id)] }
    | none => self
  { self with m_writers := self.m_writers ++ [writer] }

/-- The method `fcWebMContext::kickVideoTask`. -/
def fcWebMContext.kickVideoTask (self : fcWebMContext) (v : VideoTask) : fcWebMContext :=
  { self with
    m_video_tasks := self.m_video_tasks ++ [v]
    video_kicked := self.video_kicked ++ [v] }

/-- The method `fcWebMContext::kickAudioTask`. -/
def fcWebMContext.kickAudioTask (self : fcWebMContext) (v : AudioTask) : fcWebMContext :=
  { self with
    m_audio_tasks := self.m_audio_tasks ++ [v]
    audio_kicked := self.audio_kicked ++ [v] }

/-- Lines 303-323 of `addVideoFramePixelsImpl`: the planes handed to the encoder, and the
context after the conversions. -/
def fcWebMContext.normalize (self : fcWebMContext) (pixels : Ptr) (fmt : fcPixelFormat) :
    fcI420Data × fcWebMContext :=
  let w := self.m_conf.video_width
  let h := self.m_conf.video_height
  if fmt = .I420 then
    let frame_size : Int := toInt32 (w * h)
    let y := pixels
    let u := y + frame_size
    let v := u + (frame_size >>> (2 : Nat))
    ({ y := y, u := u, v := v }, self)
  else if fmt = .RGBAu8 then
    let self :=
      { self with
        m_i420_image := self.m_i420_image.resize w h
        conversions := self.conversions ++ [ConvCall.fcRGBA2I420 pixels w h] }
    (self.m_i420_image.planes, self)
  else
    let self :=
      { self with
        m_rgba_image := self.m_rgba_image.resize (toSizeT (toInt32 (toInt32 (w * h) * 4)))
        conversions := self.conversions ++
          [ConvCall.fcConvertPixelFormat self.m_rgba_image.data pixels fmt (toInt32 (w * h))] }
    let self :=
      { self with
        m_i420_image := self.m_i420_image.resize w h
        conversions := self.conversions ++ [ConvCall.fcRGBA2I420 self.m_rgba_image.data w h] }
    (self.m_i420_image.planes, self)

/-- The method `fcWebMContext::addVideoFramePixelsImpl`.  A task exists only behind the
guard `!m_video_encoder`, so the encoder is present whenever this runs; without one the
model makes no call. -/
def fcWebMContext.addVideoFramePixelsImpl (env : Env) (self : fcWebMContext) (pixels : Ptr)
    (fmt : fcPixelFormat) (timestamp : fcTime) : Bool × fcWebMContext :=
  let (i420, self) := self.normalize pixels fmt
  match self.m_video_encoder with
  | none => (true, self)
  | some enc =>
      let (ok, enc, frame) :=
        enc.encode env.vpx_codec_encode self.m_video_frame i420 timestamp false
      let self := { self with m_video_encoder := some enc, m_video_frame := frame }
      if ok then
        let self := self.eachStreams (.addVideoFrame self.m_video_frame)
        (true, { self with m_video_frame := self.m_video_frame.clear })
      else (true, self)

/-- The closure of `flushVideo`. -/
def fcWebMContext.flushVideoTask (env : Env) (self : fcWebMContext) : fcWebMContext :=
  match self.m_video_encoder with
  | none => self
  | some enc =>
      let (ok, enc, frame) := enc.flush env.vpx_codec_encode self.m_video_frame
      let self := { self with m_video_encoder := some enc, m_video_frame := frame }
      if ok then
        let self := self.eachStreams (.addVideoFrame self.m_video_frame)
        { self with m_video_frame := self.m_video_frame.clear }
      else self

/-- The call of the audio encoder made by a task, followed by the fan-out on success. -/
def fcWebMContext.audioCall (env : Env) (self : fcWebMContext) (call : AudioCall) :
    fcWebMContext :=
  match self.m_audio_encoder with
  | none => self
  | some enc =>
      let enc := { enc with calls := enc.calls ++ [call] }
      let (ok, frame) := env.audio_codec enc.calls self.m_audio_frame
      let self := { self with m_audio_encoder := some enc, m_audio_frame := frame }
      if ok then
        let self := self.eachStreams (.addAudioFrame self.m_audio_frame)
        { self with m_audio_frame := self.m_audio_frame.clear }
      else self

/-- The call `task()` on the video worker: the bodies of the lambdas of the source. -/
def VideoTask.run (env : Env) (self : fcWebMContext) : VideoTask → fcWebMContext
  | .frame buf fmt timestamp =>
      let (_, self) := self.addVideoFramePixelsImpl env buf.data fmt timestamp
      { self with m_video_buffers := self.m_video_buffers.push buf }
  | .flush => self.flushVideoTask env

/-- The call `task()` on the audio worker: the bodies of the lambdas of the source. -/
def AudioTask.run (env : Env) (self : fcWebMContext) : AudioTask → fcWebMContext
  | .frame buf =>
      let self := self.audioCall env (.encode buf.data buf.size)
      { self with m_audio_buffers := self.m_audio_buffers.push buf }
  | .flush => self.audioCall env .flush

/-- The method `fcWebMContext::flushVideo`. -/
def fcWebMContext.flushVideo (self : fcWebMContext) : fcWebMContext :=
  if self.m_video_encoder.isNone then self else self.kickVideoTask .flush

/-- The method `fcWebMContext::flushAudio`. -/
def fcWebMContext.flushAudio (self : fcWebMContext) : fcWebMContext :=
  if self.m_audio_encoder.isNone then self else self.kickAudioTask .flush

/-- One atomic step of the thread running `processVideoTasks`. -/
def fcWebMContext.processVideoTasks (env : Env) (self : fcWebMContext) : fcWebMContext :=
  match self.m_video_thread with
  | .absent => self
  | .exited => self
  | .loopTop =>
      if !self.m_stop then { self with m_video_thread := .locked }
      else { self with m_video_thread := .exited }
  | .locked =>
      if !self.m_stop && self.m_video_tasks.isEmpty then self
      else if self.m_stop && self.m_video_tasks.isEmpty then
        { self with m_video_thread := .exited }
      else
        match self.m_video_tasks with
        | [] => self
        | task :: rest => { self with m_video_tasks := rest, m_video_thread := .running task }
  | .running task =>
      let done := task.run env self
      { done with
        m_video_thread := .loopTop
        video_done := done.video_done ++ [(task, done.calls.drop self.calls.length)] }

/-- One atomic step of the thread running `processAudioTasks`. -/
def fcWebMContext.processAudioTasks (env : Env) (self : fcWebMContext) : fcWebMContext :=
  match self.m_audio_thread with
  | .absent => self
  | .exited => self
  | .loopTop =>
      if !self.m_stop then { self with m_audio_thread := .locked }
      else { self with m_audio_thread := .exited }
  | .locked =>
      if !self.m_stop && self.m_audio_tasks.isEmpty then self
      else if self.m_stop && self.m_audio_tasks.isEmpty then
        { self with m_audio_thread := .exited }
      else
        match self.m_audio_tasks with
        | [] => self
        | task :: rest => { self with m_audio_tasks := rest, m_audio_thread := .running task }
  | .running task =>
      let done := task.run env self
      { done with
        m_audio_thread := .loopTop
        audio_done := done.audio_done ++ [(task, done.calls.drop self.calls.length)] }

/-! ## `fcWebMFile.cpp`: ingestion -/

/-- How an ingestion call gets past its guard and `pop()`. -/
inductive Entry where
  /-- The guard failed: the call returns `false` at once. -/
  | rejected
  /-- The pool is empty: `pop()` keeps polling. -/
  | blocked
  /-- A buffer was taken out of the pool. -/
  | acquired (buf : Buffer) (self : fcWebMContext)
deriving DecidableEq

/-- The value of `m_conf.video_width * m_conf.video_height * psize` as a `size_t`. -/
def fcWebMContext.videoSize (env : Env) (self : fcWebMContext) (fmt : fcPixelFormat) : Nat :=
  let psize : Nat := env.fcGetPixelSize fmt % 18446744073709551616
  (toSizeT (toInt32 (self.m_conf.video_width * self.m_conf.video_height)) * psize)
    % 18446744073709551616

/-- Lines 265-267 of `addVideoFrameTexture`: the guard and `pop()`. -/
def fcWebMContext.addVideoFrameTexture_begin (self : fcWebMContext) (tex : Ptr) : Entry :=
  if tex = 0 || self.m_video_encoder.isNone || !self.m_gdev then .rejected
  else
    match self.m_video_buffers.pop with
    | none => .blocked
    | some (buf, q) => .acquired buf { self with m_video_buffers := q }

/-- The `readTexture` call of `addVideoFrameTexture` on the buffer `buf`, already resized. -/
def fcWebMContext.readCall (self : fcWebMContext) (buf : Buffer) (tex : Ptr)
    (fmt : fcPixelFormat) : ReadCall :=
  { o_buf := buf.data
    bufsize := buf.size
    tex := tex
    width := self.m_conf.video_width
    height := self.m_conf.video_height
    format := fmt }

/-- Lines 268-281 of `addVideoFrameTexture`: what follows `pop()`. -/
def fcWebMContext.addVideoFrameTexture_end (env : Env) (self : fcWebMContext) (buf : Buffer)
    (tex : Ptr) (fmt : fcPixelFormat) (timestamp : fcTime) : Bool × fcWebMContext :=
  let buf := buf.resize (self.videoSize env fmt)
  let self := { self with reads := self.reads ++ [self.readCall buf tex fmt] }
  if env.readTexture self.reads then
    (true, self.kickVideoTask (.frame buf fmt timestamp))
  else
    (false, { self with m_video_buffers := self.m_video_buffers.push buf })

/-- The method `fcWebMContext::addVideoFrameTexture`; `none` when `pop()` finds the pool
empty and keeps polling. -/
def fcWebMContext.addVideoFrameTexture (env : Env) (self : fcWebMContext) (tex : Ptr)
    (fmt : fcPixelFormat) (timestamp : fcTime) : Option (Bool × fcWebMContext) :=
  match self.addVideoFrameTexture_begin tex with
  | .rejected => some (false, self)
  | .blocked => none
  | .acquired buf self => some (self.addVideoFrameTexture_end env buf tex fmt timestamp)

/-- Lines 286-288 of `addVideoFramePixels`: the guard and `pop()`. -/
def fcWebMContext.addVideoFramePixels_begin (self : fcWebMContext) (pixels : Ptr) : Entry :=
  if pixels = 0 || self.m_video_encoder.isNone then .rejected
  else
    match self.m_video_buffers.pop with
    | none => .blocked
    | some (buf, q) => .acquired buf { self with m_video_buffers := q }

/-- Lines 289-298 of `addVideoFramePixels`: what follows `pop()`.  The bytes copied by
`memcpy` are not represented. -/
def fcWebMContext.addVideoFramePixels_end (env : Env) (self : fcWebMContext) (buf : Buffer)
    (_pixels : Ptr) (fmt : fcPixelFormat) (timestamp : fcTime) : Bool × fcWebMContext :=
  let buf := buf.resize (self.videoSize env fmt)
  (true, self.kickVideoTask (.frame buf fmt timestamp))

/-- The method `fcWebMContext::addVideoFramePixels`; `none` when `pop()` finds the pool
empty and keeps polling. -/
def fcWebMContext.addVideoFramePixels (env : Env) (self : fcWebMContext) (pixels : Ptr)
    (fmt : fcPixelFormat) (timestamp : fcTime) : Option (Bool × fcWebMContext) :=
  match self.addVideoFramePixels_begin pixels with
  | .rejected => some (false, self)
  | .blocked => none
  | .acquired buf self => some (self.addVideoFramePixels_end env buf pixels fmt timestamp)

/-- Lines 353-355 of `addAudioFrame`: the guard and `pop()`. -/
def fcWebMContext.addAudioFrame_begin (self : fcWebMContext) (samples : Ptr) : Entry :=
  if samples = 0 || self.m_audio_encoder.isNone then .rejected
  else
    match self.m_audio_buffers.pop with
    | none => .blocked
    | some (buf, q) => .acquired buf { self with m_audio_buffers := q }

/-- Lines 356-367 of `addAudioFrame`: what follows `pop()`.  `assign` gives the buffer the
size `num_samples`; the samples copied are not represented. -/
def fcWebMContext.addAudioFrame_end (self : fcWebMContext) (buf : Buffer) (_samples : Ptr)
    (num_samples : Int) (_timestamp : fcTime) : Bool × fcWebMContext :=
  let buf := buf.resize (toSizeT num_samples)
  (true, self.kickAudioTask (.frame buf))

/-- The method `fcWebMContext::addAudioFrame`; `none` when `pop()` finds the pool empty and
keeps polling. -/
def fcWebMContext.addAudioFrame (self : fcWebMContext) (samples : Ptr) (num_samples : Int)
    (timestamp : fcTime) : Option (Bool × fcWebMContext) :=
  match self.addAudioFrame_begin samples with
  | .rejected => some (false, self)
  | .blocked => none
  | .acquired buf self => some (self.addAudioFrame_end buf samples num_samples timestamp)

/-! ## Interleaving of the threads -/

/-- An atomic step of one thread. -/
inductive Event where
  /-- A caller runs `addOutputStream`. -/
  | addOutputStream (s : Nat)
  /-- A producer enters `addVideoFrameTexture` and runs it up to `pop()`. -/
  | enterTexture (tex : Ptr) (fmt : fcPixelFormat) (timestamp : fcTime)
  /-- A producer enters `addVideoFramePixels` and runs it up to `pop()`. -/
  | enterPixels (pixels : Ptr) (fmt : fcPixelFormat) (timestamp : fcTime)
  /-- A producer enters `addAudioFrame` and runs it up to `pop()`. -/
  | enterAudio (samples : Ptr) (num_samples : Int) (timestamp : fcTime)
  /-- The producer at index `i` of `producers` runs its call to the end. -/
  | leave (i : Nat)
  /-- The destructor runs `flushVideo()`. -/
  | flushVideo
  /-- The destructor runs `flushAudio()`. -/
  | flushAudio
  /-- The destructor runs `m_stop = true`. -/
  | stop
  /-- The video worker takes a step. -/
  | videoWorker
  /-- The audio worker takes a step. -/
  | audioWorker
deriving DecidableEq

/-- After the first part of an ingestion call: a producer that acquired a buffer is recorded
as being inside the call; a rejected or polling one leaves the context as it was. -/
def Entry.suspend (e : Entry) (self : fcWebMContext) (p : Buffer → Producer) :
    fcWebMContext :=
  match e with
  | .acquired buf s => { s with producers := s.producers ++ [p buf] }
  | .rejected => self
  | .blocked => self

/-- The second part of the ingestion call a producer is inside of. -/
def Producer.finish (env : Env) (self : fcWebMContext) : Producer → fcWebMContext
  | .texture buf tex fmt timestamp =>
      (self.addVideoFrameTexture_end env buf tex fmt timestamp).2
  | .pixels buf src fmt timestamp =>
      (self.addVideoFramePixels_end env buf src fmt timestamp).2
  | .audio buf src num_samples timestamp =>
      (self.addAudioFrame_end buf src num_samples timestamp).2

/-- The effect of one event. -/
def step (env : Env) (self : fcWebMContext) : Event → fcWebMContext
  | .addOutputStream s => self.addOutputStream s
  | .enterTexture tex fmt timestamp =>
      (self.addVideoFrameTexture_begin tex).suspend self (.texture · tex fmt timestamp)
  | .enterPixels pixels fmt timestamp =>
      (self.addVideoFramePixels_begin pixels).suspend self (.pixels · pixels fmt timestamp)
  | .enterAudio samples num_samples timestamp =>
      (self.addAudioFrame_begin samples).suspend self (.audio · samples num_samples timestamp)
  | .leave i =>
      match self.producers[i]? with
      | none => self
      | some p => p.finish env { self with producers := self.producers.eraseIdx i }
  | .flushVideo => self.flushVideo
  | .flushAudio => self.flushAudio
  | .stop => { self with m_stop := true }
  | .videoWorker => self.processVideoTasks env
  | .audioWorker => self.processAudioTasks env

/-- The context after a sequence of events. -/
def run (env : Env) (self : fcWebMContext) (events : List Event) : fcWebMContext :=
  events.foldl (step env) self

/-! ## Notions used in the statements -/

/-- The video buffers that are out of the pool: held by a producer inside an ingestion
call, by the task the worker is about to run, or by a queued task. -/
def fcWebMContext.videoOutstanding (self : fcWebMContext) : List Buffer :=
  self.producers.flatMap Producer.videoBuffer
    ++ self.m_video_thread.task.flatMap VideoTask.buffer
    ++ self.m_video_tasks.flatMap VideoTask.buffer

/-- The audio buffers that are out of the pool. -/
def fcWebMContext.audioOutstanding (self : fcWebMContext) : List Buffer :=
  self.producers.flatMap Producer.audioBuffer
    ++ self.m_audio_thread.task.flatMap AudioTask.buffer
    ++ self.m_audio_tasks.flatMap AudioTask.buffer

/-- Whether a writer call is `addVideoFrame`. -/
def WriterCall.isVideoFrame : WriterCall → Bool
  | .addVideoFrame _ => true
  | _ => false

/-- Whether a writer call is `addAudioFrame`. -/
def WriterCall.isAudioFrame : WriterCall → Bool
  | .addAudioFrame _ => true
  | _ => false

/-- What the video encoder answers when `task` is run in the context `self`: the result of
`encode` or `flush` and the frame `m_video_frame` holds after it. -/
def VideoTask.encoderResult (env : Env) (self : fcWebMContext) :
    VideoTask → Option (Bool × fcVPXFrame)
  | .frame buf fmt timestamp =>
      let (i420, self) := self.normalize buf.data fmt
      self.m_video_encoder.map fun enc =>
        let r := enc.encode env.vpx_codec_encode self.m_video_frame i420 timestamp false
        (r.1, r.2.2)
  | .flush =>
      self.m_video_encoder.map fun enc =>
        let r := enc.flush env.vpx_codec_encode self.m_video_frame
        (r.1, r.2.2)

/-- The call a task makes to the audio encoder. -/
def AudioTask.call : AudioTask → AudioCall
  | .frame buf => .encode buf.data buf.size
  | .flush => .flush

/-- What the audio encoder answers when `task` is run in the context `self`: the result of
`encode` or `flush` and the frame `m_audio_frame` holds after it. -/
def AudioTask.encoderResult (env : Env) (self : fcWebMContext) (task : AudioTask) :
    Option (Bool × fcWebMAudioFrame) :=
  self.m_audio_encoder.map fun enc =>
    env.audio_codec (enc.calls ++ [task.call]) self.m_audio_frame

/-! ## Concrete inputs -/

/-- Collaborators that always succeed: libvpx yields one key-frame packet per call. -/
def sampleEnv : Env :=
  { vpx_codec_encode := fun _ => { ok := true, pkts := [.frame [1, 2, 3] 0 1] }
    audio_codec := fun _ f => (true, { f with data := f.data ++ [7] })
    readTexture := fun _ => true
    fcGetPixelSize := fun _ => 4
    buffer_data := fun i => 4096 * (i + 1)
    i420_planes := { y := 100, u := 200, v := 300 }
    rgba_data := 400 }

/-- Collaborators that always fail. -/
def failingEnv : Env :=
  { sampleEnv with
    vpx_codec_encode := fun _ => { ok := false, pkts := [] }
    audio_codec := fun _ f => (false, f)
    readTexture := fun _ => false }

/-- A configuration with both media types enabled. -/
def sampleConf : fcWebMConfig :=
  { video := true
    audio := true
    video_encoder := .VP9
    audio_encoder := .Vorbis
    video_width := 4
    video_height := 2
    video_bitrate := 1000
    audio_sample_rate := 48000
    audio_num_channels := 2
    audio_bitrate := 64000 }

/-- The context right after construction with `sampleConf`. -/
def sampleCtx : fcWebMContext := fcWebMContext.create sampleEnv sampleConf true

/-- A shutdown that overtakes the worker: one frame is ingested and the worker has taken it
off the queue when the destructor enqueues the flush tasks and raises `m_stop`; the worker
then finishes the frame and evaluates its loop condition. -/
def shutdownSchedule : List Event :=
  [.enterPixels 5000 .RGBAu8 0, .leave 0, .videoWorker, .videoWorker,
   .flushVideo, .flushAudio, .stop, .videoWorker, .videoWorker]

/-- A shutdown before the worker thread was first scheduled: two frames and the flush task
are queued and `m_stop` is raised, then the worker evaluates its loop condition. -/
def earlyShutdownSchedule : List Event :=
  [.enterPixels 5000 .RGBAu8 0, .leave 0, .enterPixels 5000 .RGBAu8 1, .leave 0,
   .flushVideo, .flushAudio, .stop, .videoWorker, .videoWorker, .videoWorker]

/-- Two output streams are registered, nothing else happens. -/
def twoWriters : List Event := [.addOutputStream 1, .addOutputStream 2]

/-- The frame `m_video_frame` holds after a successful call of the encoder of `sampleEnv` on
an empty frame. -/
def sampleFrame : fcVPXFrame :=
  { data := [1, 2, 3], blocks := [{ size := 3, timestamp := 0, keyframe := 1 }] }

/-- With failing collaborators: two frames were ingested and the video worker has dequeued
the first of them and is about to run it. -/
def busyCtx : fcWebMContext :=
  run failingEnv (fcWebMContext.create failingEnv sampleConf true)
    [.enterPixels 5000 .I420 0, .leave 0, .enterPixels 5000 .I420 1, .leave 0,
     .videoWorker, .videoWorker]

/-- Four producers enter `addVideoFramePixels` and each takes a buffer out of the pool; none
has finished its call. -/
def saturatingSchedule : List Event :=
  [.enterPixels 5000 .RGBAu8 0, .enterPixels 5000 .RGBAu8 0, .enterPixels 5000 .RGBAu8 0,
   .enterPixels 5000 .RGBAu8 0]

/-- A freshly constructed VP9 encoder for a 4 x 2 image. -/
def freshEncoder : fcVPXEncoder :=
  fcVPXEncoder.create { width := 4, height := 2, target_bitrate := 1000 } .VP9

/-- The encoder after two consecutive `encode` calls on `freshEncoder`, the first with
timestamp `prev`, the second with timestamp `t`. -/
def encodeTwice (prev t : fcTime) : fcVPXEncoder :=
  ((freshEncoder.encode sampleEnv.vpx_codec_encode { data := [], blocks := [] }
        sampleEnv.i420_planes prev false).2.1.encode
      sampleEnv.vpx_codec_encode { data := [], blocks := [] } sampleEnv.i420_planes t false).2.1

/-- The double nearest to 0.0167, the value a caller passing `0.0167` hands over:
`2406723640866793 / 2^57`, a little below 0.0167. -/
def double0167 : fcTime := 2406723640866793 / 144115188075855872

/-- The shutdown that follows `busyCtx`: the destructor enqueues the flush tasks and raises
`m_stop` while the video worker is inside the first frame's task; the worker then finishes
that task and evaluates its loop condition. -/
def failureShutdownSchedule : List Event :=
  [.flushVideo, .flushAudio, .stop, .videoWorker, .videoWorker]


/-! ## The transition relation and its invariants -/

/-- The atomic transitions of the system, each given by the fields it changes. -/
inductive Trans (s : fcWebMContext) : fcWebMContext → Prop
  | stutter : Trans s s
  | stop : Trans s { s with m_stop := true }
  | addStream (out : List (Nat × WriterCall)) (stream : Nat) :
      (∀ c ∈ out, c.1 = s.m_writers.length ∧ c.2.isVideoFrame = false ∧ c.2.isAudioFrame = false) →
      Trans s { s with
        calls := s.calls ++ out
        m_writers := s.m_writers ++ [{ id := s.m_writers.length, stream := stream }] }
  | acquireVideo (front : List Buffer) (buf : Buffer) (p : Producer) :
      s.m_video_buffers.m_resources = front ++ [buf] →
      p.videoBuffer = [buf] → p.audioBuffer = [] →
      Trans s { s with
        m_video_buffers := { m_resources := front }
        producers := s.producers ++ [p] }
  | acquireAudio (front : List Buffer) (buf : Buffer) (p : Producer) :
      s.m_audio_buffers.m_resources = front ++ [buf] →
      p.audioBuffer = [buf] → p.videoBuffer = [] →
      Trans s { s with
        m_audio_buffers := { m_resources := front }
        producers := s.producers ++ [p] }
  | kickVideoFrame (pre post : List Producer) (p : Producer) (buf buf2 : Buffer)
      (fmt : fcPixelFormat) (ts : fcTime) (reads : List ReadCall) :
      s.producers = pre ++ p :: post →
      p.videoBuffer = [buf] → p.audioBuffer = [] → buf2.id = buf.id →
      Trans s { s with
        producers := pre ++ post
        reads := reads
        m_video_tasks := s.m_video_tasks ++ [.frame buf2 fmt ts]
        video_kicked := s.video_kicked ++ [.frame buf2 fmt ts] }
  | releaseVideo (pre post : List Producer) (p : Producer) (buf buf2 : Buffer)
      (reads : List ReadCall) :
      s.producers = pre ++ p :: post →
      p.videoBuffer = [buf] → p.audioBuffer = [] → buf2.id = buf.id →
      Trans s { s with
        producers := pre ++ post
        reads := reads
        m_video_buffers := { m_resources := s.m_video_buffers.m_resources ++ [buf2] } }
  | kickAudioFrame (pre post : List Producer) (p : Producer) (buf buf2 : Buffer) :
      s.producers = pre ++ p :: post →
      p.audioBuffer = [buf] → p.videoBuffer = [] → buf2.id = buf.id →
      Trans s { s with
        producers := pre ++ post
        m_audio_tasks := s.m_audio_tasks ++ [.frame buf2]
        audio_kicked := s.audio_kicked ++ [.frame buf2] }
  | kickVideoFlush :
      Trans s { s with
        m_video_tasks := s.m_video_tasks ++ [.flush]
        video_kicked := s.video_kicked ++ [.flush] }
  | kickAudioFlush :
      Trans s { s with
        m_audio_tasks := s.m_audio_tasks ++ [.flush]
        audio_kicked := s.audio_kicked ++ [.flush] }
  | videoMove (w : Worker VideoTask) :
      s.m_video_thread.task = [] → w.task = [] → Trans s { s with m_video_thread := w }
  | audioMove (w : Worker AudioTask) :
      s.m_audio_thread.task = [] → w.task = [] → Trans s { s with m_audio_thread := w }
  | videoDequeue (task : VideoTask) (rest : List VideoTask) :
      s.m_video_thread.task = [] → s.m_video_tasks = task :: rest →
      Trans s { s with m_video_tasks := rest, m_video_thread := .running task }
  | audioDequeue (task : AudioTask) (rest : List AudioTask) :
      s.m_audio_thread.task = [] → s.m_audio_tasks = task :: rest →
      Trans s { s with m_audio_tasks := rest, m_audio_thread := .running task }
  | videoRun (task : VideoTask) (enc : Option fcVPXEncoder) (frame : fcVPXFrame)
      (out : List (Nat × WriterCall)) (conv : List ConvCall) (i420 : fcI420Image)
      (rgba : Buffer) :
      s.m_video_thread = .running task →
      (out = [] ∨ ∃ f, out = s.m_writers.map (fun w => (w.id, WriterCall.addVideoFrame f))) →
      (frame = { data := [], blocks := [] } ∨ frame = s.m_video_frame) →
      Trans s { s with
        m_video_encoder := enc, m_video_frame := frame, calls := s.calls ++ out
        conversions := conv, m_i420_image := i420, m_rgba_image := rgba
        m_video_buffers := { m_resources := s.m_video_buffers.m_resources ++ task.buffer }
        m_video_thread := .loopTop
        video_done := s.video_done ++ [(task, out)] }
  | audioRun (task : AudioTask) (enc : Option fcAudioEncoder) (frame : fcWebMAudioFrame)
      (out : List (Nat × WriterCall)) :
      s.m_audio_thread = .running task →
      (out = [] ∨ ∃ f, out = s.m_writers.map (fun w => (w.id, WriterCall.addAudioFrame f))) →
      Trans s { s with
        m_audio_encoder := enc, m_audio_frame := frame, calls := s.calls ++ out
        m_audio_buffers := { m_resources := s.m_audio_buffers.m_resources ++ task.buffer }
        m_audio_thread := .loopTop
        audio_done := s.audio_done ++ [(task, out)] }

/-- Writers carry their registration index, and only registered writers were called. -/
def WriterInv (s : fcWebMContext) : Prop :=
  s.m_writers.map (·.id) = List.range s.m_writers.length ∧
  ∀ c ∈ s.calls, c.1 < s.m_writers.length

/-- The buffers in a pool and the buffers out of it are the buffers the pool was filled
with at construction. -/
def PoolInv (s : fcWebMContext) : Prop :=
  ((s.m_video_buffers.m_resources ++ s.videoOutstanding).map (·.id)).Perm
      (if s.m_conf.video then [0, 1, 2, 3] else []) ∧
  ((s.m_audio_buffers.m_resources ++ s.audioOutstanding).map (·.id)).Perm
      (if s.m_conf.audio then [4, 5, 6, 7] else [])

/-- Between two tasks the frame `m_video_frame` is empty. -/
def FrameInv (s : fcWebMContext) : Prop :=
  s.m_video_frame = { data := [], blocks := [] }

/-! ## Lemmas -/

theorem run_induction (env : Env) (P : fcWebMContext → Prop)
    (hstep : ∀ s e, P s → P (step env s e)) :
    ∀ (events : List Event) (s : fcWebMContext), P s → P (run env s events) := by
  intro events
  induction events with
  | nil => intro s h; exact h
  | cons e es ih => intro s h; exact ih (step env s e) (hstep s e h)

theorem normalize_shape (self : fcWebMContext) (pixels : Ptr) (fmt : fcPixelFormat) :
    ∃ conv i420 rgba,
      (self.normalize pixels fmt).2 =
        { self with conversions := conv, m_i420_image := i420, m_rgba_image := rgba } := by
  unfold fcWebMContext.normalize
  split_ifs
  · exact ⟨_, _, _, rfl⟩
  · exact ⟨_, _, _, rfl⟩
  · exact ⟨_, _, _, rfl⟩

/-- The frame `encode` leaves in `dst`: on success the packets of the codec call appended to
`dst`, on failure `dst` as it was. -/
theorem encode_frame (codec : List VpxCall → VpxResult) (enc : fcVPXEncoder)
    (dst : fcVPXFrame) (image : fcI420Data) (t : fcTime) (kf : Bool) :
    (enc.encode codec dst image t kf).2.2 =
      (if (enc.encode codec dst image t kf).1 then
        gatherFrameData (codec (enc.encode codec dst image t kf).2.1.m_vpx_ctx).pkts dst
      else dst) := by
  unfold fcVPXEncoder.encode
  cases kf <;> simp only [Bool.false_eq_true, if_true, if_false] <;> split <;> simp_all

/-- The frame `flush` leaves in `dst`: on success the packets of the codec call appended to
`dst`, on failure `dst` as it was. -/
theorem flush_frame (codec : List VpxCall → VpxResult) (enc : fcVPXEncoder)
    (dst : fcVPXFrame) :
    (enc.flush codec dst).2.2 =
      (if (enc.flush codec dst).1 then
        gatherFrameData (codec (enc.flush codec dst).2.1.m_vpx_ctx).pkts dst
      else dst) := by
  unfold fcVPXEncoder.flush
  simp only
  split <;> simp_all

theorem impl_shape (env : Env) (self : fcWebMContext) (pixels : Ptr) (fmt : fcPixelFormat)
    (timestamp : fcTime) :
    ∃ enc frame out conv i420 rgba,
      (self.addVideoFramePixelsImpl env pixels fmt timestamp).2 =
        { self with
          m_video_encoder := enc, m_video_frame := frame, calls := out,
          conversions := conv, m_i420_image := i420, m_rgba_image := rgba } ∧
      (out = self.calls ∨
        ∃ f, out = self.calls ++
          self.m_writers.map (fun s => (s.id, WriterCall.addVideoFrame f))) ∧
      (frame = { data := [], blocks := [] } ∨ frame = self.m_video_frame) := by
  obtain ⟨conv, i420, rgba, hn⟩ := normalize_shape self pixels fmt
  unfold fcWebMContext.addVideoFramePixelsImpl
  rcases hs : self.normalize pixels fmt with ⟨planes, s1⟩
  rw [hs] at hn
  simp only at hn
  subst hn
  simp only
  cases henc : self.m_video_encoder with
  | none => exact ⟨_, _, _, _, _, _, rfl, Or.inl rfl, Or.inr rfl⟩
  | some enc =>
    simp only
    split_ifs with hok
    · exact ⟨_, _, _, _, _, _, rfl, Or.inr ⟨_, rfl⟩, Or.inl rfl⟩
    · refine ⟨_, _, _, _, _, _, rfl, Or.inl rfl, Or.inr ?_⟩
      rw [encode_frame, if_neg hok]

theorem flushVideoTask_shape (env : Env) (self : fcWebMContext) :
    ∃ enc frame out,
      self.flushVideoTask env =
        { self with m_video_encoder := enc, m_video_frame := frame, calls := out } ∧
      (out = self.calls ∨
        ∃ f, out = self.calls ++
          self.m_writers.map (fun s => (s.id, WriterCall.addVideoFrame f))) ∧
      (frame = { data := [], blocks := [] } ∨ frame = self.m_video_frame) := by
  unfold fcWebMContext.flushVideoTask
  cases henc : self.m_video_encoder with
  | none =>
    exact ⟨self.m_video_encoder, self.m_video_frame, self.calls, rfl, Or.inl rfl, Or.inr rfl⟩
  | some enc =>
    simp only
    split_ifs with hok
    · exact ⟨_, _, _, rfl, Or.inr ⟨_, rfl⟩, Or.inl rfl⟩
    · refine ⟨_, _, _, rfl, Or.inl rfl, Or.inr ?_⟩
      rw [flush_frame, if_neg hok]

theorem audioCall_shape (env : Env) (self : fcWebMContext) (call : AudioCall) :
    ∃ enc frame out,
      self.audioCall env call =
        { self with m_audio_encoder := enc, m_audio_frame := frame, calls := out } ∧
      (out = self.calls ∨
        ∃ f, out = self.calls ++
          self.m_writers.map (fun s => (s.id, WriterCall.addAudioFrame f))) := by
  unfold fcWebMContext.audioCall
  cases henc : self.m_audio_encoder with
  | none => exact ⟨self.m_audio_encoder, self.m_audio_frame, self.calls, rfl, Or.inl rfl⟩
  | some enc =>
    simp only
    split_ifs with hok
    · exact ⟨_, _, _, rfl, Or.inr ⟨_, rfl⟩⟩
    · exact ⟨_, _, _, rfl, Or.inl rfl⟩

theorem videoTask_run_shape (env : Env) (self : fcWebMContext) (task : VideoTask) :
    ∃ enc frame out conv i420 rgba,
      task.run env self =
        { self with
          m_video_encoder := enc, m_video_frame := frame, calls := out,
          conversions := conv, m_i420_image := i420, m_rgba_image := rgba,
          m_video_buffers := { m_resources := self.m_video_buffers.m_resources ++ task.buffer } } ∧
      (out = self.calls ∨
        ∃ f, out = self.calls ++
          self.m_writers.map (fun s => (s.id, WriterCall.addVideoFrame f))) ∧
      (frame = { data := [], blocks := [] } ∨ frame = self.m_video_frame) := by
  cases task with
  | frame buf fmt ts =>
    obtain ⟨enc, frame, out, conv, i420, rgba, h, hout, hfr⟩ :=
      impl_shape env self buf.data fmt ts
    refine ⟨enc, frame, out, conv, i420, rgba, ?_, hout, hfr⟩
    simp only [VideoTask.run, h, ResourceQueue.push, VideoTask.buffer]
  | flush =>
    obtain ⟨enc, frame, out, h, hout, hfr⟩ := flushVideoTask_shape env self
    refine ⟨enc, frame, out, self.conversions, self.m_i420_image, self.m_rgba_image, ?_, hout,
      hfr⟩
    simp [VideoTask.run, h, VideoTask.buffer]

theorem audioTask_run_shape (env : Env) (self : fcWebMContext) (task : AudioTask) :
    ∃ enc frame out,
      task.run env self =
        { self with
          m_audio_encoder := enc, m_audio_frame := frame, calls := out,
          m_audio_buffers := { m_resources := self.m_audio_buffers.m_resources ++ task.buffer } } ∧
      (out = self.calls ∨
        ∃ f, out = self.calls ++
          self.m_writers.map (fun s => (s.id, WriterCall.addAudioFrame f))) := by
  cases task with
  | frame buf =>
    obtain ⟨enc, frame, out, h, hout⟩ := audioCall_shape env self (.encode buf.data buf.size)
    refine ⟨enc, frame, out, ?_, hout⟩
    simp only [AudioTask.run, h, ResourceQueue.push, AudioTask.buffer]
  | flush =>
    obtain ⟨enc, frame, out, h, hout⟩ := audioCall_shape env self .flush
    refine ⟨enc, frame, out, ?_, hout⟩
    simp [AudioTask.run, h, AudioTask.buffer]

theorem pop_eq_some {T : Type} (q : ResourceQueue T) (buf : T) (q2 : ResourceQueue T)
    (h : q.pop = some (buf, q2)) :
    q.m_resources = q2.m_resources ++ [buf] := by
  unfold ResourceQueue.pop at h
  split at h
  · rename_i ret hret
    simp only [Option.some.injEq, Prod.mk.injEq] at h
    obtain ⟨rfl, rfl⟩ := h
    exact (List.dropLast_append_getLast? ret hret).symm
  · simp at h

theorem producers_split (l : List Producer) (i : Nat) (p : Producer) (h : l[i]? = some p) :
    l = l.take i ++ p :: l.drop (i + 1) ∧ l.eraseIdx i = l.take i ++ l.drop (i + 1) := by
  obtain ⟨hi, rfl⟩ := List.getElem?_eq_some.mp h
  refine ⟨?_, List.eraseIdx_eq_take_drop_succ l i⟩
  rw [← List.drop_eq_getElem_cons hi, List.take_append_drop]

theorem step_trans (env : Env) (s : fcWebMContext) (e : Event) : Trans s (step env s e) := by
  cases e with
  | addOutputStream st =>
    cases hv : s.m_video_encoder with
    | none =>
      cases ha : s.m_audio_encoder with
      | none =>
        have h := Trans.addStream (s := s) [] st (by simp)
        simpa [step, fcWebMContext.addOutputStream, hv, ha] using h
      | some ea =>
        have h := Trans.addStream (s := s)
          [(s.m_writers.length, WriterCall.setAudioEncoderInfo ea.codec_id)] st
          (by simp [WriterCall.isVideoFrame, WriterCall.isAudioFrame])
        simpa [step, fcWebMContext.addOutputStream, hv, ha] using h
    | some ev =>
      cases ha : s.m_audio_encoder with
      | none =>
        have h := Trans.addStream (s := s)
          [(s.m_writers.length, WriterCall.setVideoEncoderInfo ev.m_matroska_codec_id)] st
          (by simp [WriterCall.isVideoFrame, WriterCall.isAudioFrame])
        simpa [step, fcWebMContext.addOutputStream, hv, ha] using h
      | some ea =>
        have h := Trans.addStream (s := s)
          [(s.m_writers.length, WriterCall.setVideoEncoderInfo ev.m_matroska_codec_id),
           (s.m_writers.length, WriterCall.setAudioEncoderInfo ea.codec_id)] st
          (by simp [WriterCall.isVideoFrame, WriterCall.isAudioFrame])
        simpa [step, fcWebMContext.addOutputStream, hv, ha] using h
  | enterTexture tex fmt ts =>
    simp only [step, fcWebMContext.addVideoFrameTexture_begin]
    split_ifs
    · exact Trans.stutter
    · cases hp : s.m_video_buffers.pop with
      | none => exact Trans.stutter
      | some r =>
        obtain ⟨buf, q⟩ := r
        exact Trans.acquireVideo q.m_resources buf _ (pop_eq_some _ _ _ hp) rfl rfl
  | enterPixels px fmt ts =>
    simp only [step, fcWebMContext.addVideoFramePixels_begin]
    split_ifs
    · exact Trans.stutter
    · cases hp : s.m_video_buffers.pop with
      | none => exact Trans.stutter
      | some r =>
        obtain ⟨buf, q⟩ := r
        exact Trans.acquireVideo q.m_resources buf _ (pop_eq_some _ _ _ hp) rfl rfl
  | enterAudio sm n ts =>
    simp only [step, fcWebMContext.addAudioFrame_begin]
    split_ifs
    · exact Trans.stutter
    · cases hp : s.m_audio_buffers.pop with
      | none => exact Trans.stutter
      | some r =>
        obtain ⟨buf, q⟩ := r
        exact Trans.acquireAudio q.m_resources buf _ (pop_eq_some _ _ _ hp) rfl rfl
  | leave i =>
    simp only [step]
    cases hp : s.producers[i]? with
    | none => exact Trans.stutter
    | some p =>
      obtain ⟨h1, h2⟩ := producers_split _ _ _ hp
      simp only [h2]
      cases p with
      | texture buf tex fmt ts =>
        simp only [Producer.finish, fcWebMContext.addVideoFrameTexture_end]
        split_ifs
        · exact Trans.kickVideoFrame _ _ _ buf _ fmt ts _ h1 rfl rfl rfl
        · exact Trans.releaseVideo _ _ _ buf _ _ h1 rfl rfl rfl
      | pixels buf px fmt ts =>
        exact Trans.kickVideoFrame _ _ _ buf _ fmt ts s.reads h1 rfl rfl rfl
      | audio buf sm n ts =>
        exact Trans.kickAudioFrame _ _ _ buf _ h1 rfl rfl rfl
  | flushVideo =>
    simp only [step, fcWebMContext.flushVideo]
    split_ifs
    · exact Trans.stutter
    · exact Trans.kickVideoFlush
  | flushAudio =>
    simp only [step, fcWebMContext.flushAudio]
    split_ifs
    · exact Trans.stutter
    · exact Trans.kickAudioFlush
  | stop => exact Trans.stop
  | videoWorker =>
    simp only [step, fcWebMContext.processVideoTasks]
    cases hth : s.m_video_thread with
    | absent => exact Trans.stutter
    | exited => exact Trans.stutter
    | loopTop =>
      simp only
      split_ifs
      · exact Trans.videoMove _ (by simp [hth, Worker.task]) rfl
      · exact Trans.videoMove _ (by simp [hth, Worker.task]) rfl
    | locked =>
      simp only
      split_ifs
      · exact Trans.stutter
      · exact Trans.videoMove _ (by simp [hth, Worker.task]) rfl
      · cases htasks : s.m_video_tasks with
        | nil => exact Trans.stutter
        | cons task rest =>
          exact Trans.videoDequeue task rest (by simp [hth, Worker.task]) htasks
    | running task =>
      obtain ⟨enc, frame, out, conv, i420, rgba, hrun, hout, hfr⟩ :=
        videoTask_run_shape env s task
      simp only [hrun]
      rcases hout with rfl | ⟨f, rfl⟩
      · have h := Trans.videoRun (s := s) task enc frame [] conv i420 rgba hth (Or.inl rfl) hfr
        simpa using h
      · have h := Trans.videoRun (s := s) task enc frame _ conv i420 rgba hth
          (Or.inr ⟨f, rfl⟩) hfr
        simpa using h
  | audioWorker =>
    simp only [step, fcWebMContext.processAudioTasks]
    cases hth : s.m_audio_thread with
    | absent => exact Trans.stutter
    | exited => exact Trans.stutter
    | loopTop =>
      simp only
      split_ifs
      · exact Trans.audioMove _ (by simp [hth, Worker.task]) rfl
      · exact Trans.audioMove _ (by simp [hth, Worker.task]) rfl
    | locked =>
      simp only
      split_ifs
      · exact Trans.stutter
      · exact Trans.audioMove _ (by simp [hth, Worker.task]) rfl
      · cases htasks : s.m_audio_tasks with
        | nil => exact Trans.stutter
        | cons task rest =>
          exact Trans.audioDequeue task rest (by simp [hth, Worker.task]) htasks
    | running task =>
      obtain ⟨enc, frame, out, hrun, hout⟩ := audioTask_run_shape env s task
      simp only [hrun]
      rcases hout with rfl | ⟨f, rfl⟩
      · have h := Trans.audioRun (s := s) task enc frame [] hth (Or.inl rfl)
        simpa using h
      · have h := Trans.audioRun (s := s) task enc frame _ hth (Or.inr ⟨f, rfl⟩)
        simpa using h


theorem writerInv_step {s s2 : fcWebMContext} (ht : Trans s s2) (h : WriterInv s) :
    WriterInv s2 := by
  obtain ⟨h1, h2⟩ := h
  have hout : ∀ (out : List (Nat × WriterCall)) (g : WriterCall),
      out = s.m_writers.map (fun w => (w.id, g)) → ∀ c ∈ out, c.1 < s.m_writers.length := by
    intro out g ho c hc
    subst ho
    obtain ⟨w, hw, rfl⟩ := List.mem_map.mp hc
    have : w.id ∈ s.m_writers.map (·.id) := List.mem_map.mpr ⟨w, hw, rfl⟩
    rw [h1] at this
    exact List.mem_range.mp this
  cases ht with
  | addStream out st ho =>
    refine ⟨?_, ?_⟩
    · simp [List.range_succ, h1]
    · intro c hc
      simp only [List.mem_append] at hc
      simp only [List.length_append, List.length_singleton]
      rcases hc with hc | hc
      · exact Nat.lt_succ_of_lt (h2 c hc)
      · rw [(ho c hc).1]
        exact Nat.lt_succ_self _
  | videoRun task enc frame out conv i420 rgba hth ho =>
    refine ⟨h1, ?_⟩
    intro c hc
    simp only [List.mem_append] at hc
    rcases hc with hc | hc
    · exact h2 c hc
    · rcases ho with rfl | ⟨f, hf⟩
      · simp at hc
      · exact hout out _ hf c hc
  | audioRun task enc frame out hth ho =>
    refine ⟨h1, ?_⟩
    intro c hc
    simp only [List.mem_append] at hc
    rcases hc with hc | hc
    · exact h2 c hc
    · rcases ho with rfl | ⟨f, hf⟩
      · simp at hc
      · exact hout out _ hf c hc
  | _ => exact ⟨h1, h2⟩

theorem Worker.task_running {T : Type} (t : T) : (Worker.running t).task = [t] := rfl

theorem Worker.task_loopTop {T : Type} : (Worker.loopTop : Worker T).task = [] := rfl

theorem perm_of_count {l1 l2 L : List Nat} (h : l1.Perm L)
    (hc : ∀ a, l2.count a = l1.count a) : l2.Perm L :=
  (List.perm_iff_count.mpr hc).trans h

theorem poolInv_step {s s2 : fcWebMContext} (ht : Trans s s2) (h : PoolInv s) :
    PoolInv s2 := by
  obtain ⟨h1, h2⟩ := h
  cases ht with
  | stutter => exact ⟨h1, h2⟩
  | stop => exact ⟨h1, h2⟩
  | addStream out st hout => exact ⟨h1, h2⟩
  | kickAudioFlush =>
    refine ⟨h1, perm_of_count h2 (fun a => ?_)⟩
    simp [fcWebMContext.audioOutstanding, List.flatMap_append, AudioTask.buffer, List.count_cons,
        List.count_append]
  | kickVideoFlush =>
    refine ⟨perm_of_count h1 (fun a => ?_), h2⟩
    simp [fcWebMContext.videoOutstanding, List.flatMap_append, VideoTask.buffer, List.count_cons,
        List.count_append]
  | videoMove w hw hw2 =>
    refine ⟨perm_of_count h1 (fun a => ?_), h2⟩
    simp [fcWebMContext.videoOutstanding, hw, hw2]
  | audioMove w hw hw2 =>
    refine ⟨h1, perm_of_count h2 (fun a => ?_)⟩
    simp [fcWebMContext.audioOutstanding, hw, hw2]
  | videoDequeue task rest hw ht =>
    refine ⟨perm_of_count h1 (fun a => ?_), h2⟩
    simp [fcWebMContext.videoOutstanding, hw, ht, Worker.task_running, Worker.task_loopTop,
        List.count_cons, List.count_append]
  | audioDequeue task rest hw ht =>
    refine ⟨h1, perm_of_count h2 (fun a => ?_)⟩
    simp [fcWebMContext.audioOutstanding, hw, ht, Worker.task_running, Worker.task_loopTop,
        List.count_cons, List.count_append]
  | videoRun task enc frame out conv i420 rgba hth hout =>
    refine ⟨perm_of_count h1 (fun a => ?_), h2⟩
    simp [fcWebMContext.videoOutstanding, hth, Worker.task_running, Worker.task_loopTop,
        List.count_cons, List.count_append]
    omega
  | audioRun task enc frame out hth hout =>
    refine ⟨h1, perm_of_count h2 (fun a => ?_)⟩
    simp [fcWebMContext.audioOutstanding, hth, Worker.task_running, Worker.task_loopTop,
        List.count_cons, List.count_append]
    omega
  | acquireVideo front buf p hp hv ha =>
    refine ⟨perm_of_count h1 (fun a => ?_), perm_of_count h2 (fun a => ?_)⟩
    · simp [fcWebMContext.videoOutstanding, hp, hv, List.flatMap_append, List.count_cons,
        List.count_append]
      omega
    · simp [fcWebMContext.audioOutstanding, ha, List.flatMap_append, List.count_cons,
        List.count_append]
  | acquireAudio front buf p hp hv ha =>
    refine ⟨perm_of_count h1 (fun a => ?_), perm_of_count h2 (fun a => ?_)⟩
    · simp [fcWebMContext.videoOutstanding, ha, List.flatMap_append, List.count_cons,
        List.count_append]
    · simp [fcWebMContext.audioOutstanding, hp, hv, List.flatMap_append, List.count_cons,
        List.count_append]
      omega
  | kickVideoFrame pre post p buf buf2 fmt ts reads hp hv ha hid =>
    refine ⟨perm_of_count h1 (fun a => ?_), perm_of_count h2 (fun a => ?_)⟩
    · simp [fcWebMContext.videoOutstanding, hp, hv, hid, List.flatMap_append, VideoTask.buffer,
        List.count_cons, List.count_append]
      omega
    · simp [fcWebMContext.audioOutstanding, hp, ha, List.flatMap_append, List.count_cons,
        List.count_append]
  | releaseVideo pre post p buf buf2 reads hp hv ha hid =>
    refine ⟨perm_of_count h1 (fun a => ?_), perm_of_count h2 (fun a => ?_)⟩
    · simp [fcWebMContext.videoOutstanding, hp, hv, hid, List.flatMap_append, List.count_cons,
        List.count_append]
      omega
    · simp [fcWebMContext.audioOutstanding, hp, ha, List.flatMap_append, List.count_cons,
        List.count_append]
  | kickAudioFrame pre post p buf buf2 hp hv ha hid =>
    refine ⟨perm_of_count h1 (fun a => ?_), perm_of_count h2 (fun a => ?_)⟩
    · simp [fcWebMContext.videoOutstanding, hp, ha, List.flatMap_append, List.count_cons,
        List.count_append]
    · simp [fcWebMContext.audioOutstanding, hp, hv, hid, List.flatMap_append, AudioTask.buffer,
        List.count_cons, List.count_append]
      omega

/-! ## Reachable states -/

theorem create_writer (env : Env) (conf : fcWebMConfig) (gd : Bool) :
    WriterInv (fcWebMContext.create env conf gd) := by
  simp [WriterInv, fcWebMContext.create]

theorem create_pool (env : Env) (conf : fcWebMConfig) (gd : Bool) :
    PoolInv (fcWebMContext.create env conf gd) := by
  constructor
  · cases hv : conf.video <;>
      simp [fcWebMContext.create, hv, fcWebMContext.videoOutstanding, Worker.task,
        ResourceQueue.push, List.range, List.range.loop]
  · cases ha : conf.audio <;>
      simp [fcWebMContext.create, ha, fcWebMContext.audioOutstanding, Worker.task,
        ResourceQueue.push, List.range, List.range.loop]

theorem Trans.m_conf_eq {s s2 : fcWebMContext} (ht : Trans s s2) : s2.m_conf = s.m_conf := by
  cases ht <;> rfl

theorem run_m_conf (env : Env) (events : List Event) (s : fcWebMContext) :
    (run env s events).m_conf = s.m_conf :=
  run_induction env (fun t => t.m_conf = s.m_conf)
    (fun t e h => (step_trans env t e).m_conf_eq.trans h) events s rfl

theorem run_writer (env : Env) (conf : fcWebMConfig) (gd : Bool) (events : List Event) :
    WriterInv (run env (fcWebMContext.create env conf gd) events) :=
  run_induction env WriterInv (fun t e h => writerInv_step (step_trans env t e) h) events _
    (create_writer env conf gd)

theorem run_pool (env : Env) (conf : fcWebMConfig) (gd : Bool) (events : List Event) :
    PoolInv (run env (fcWebMContext.create env conf gd) events) :=
  run_induction env PoolInv (fun t e h => poolInv_step (step_trans env t e) h) events _
    (create_pool env conf gd)

theorem frameInv_step {s s2 : fcWebMContext} (ht : Trans s s2) (h : FrameInv s) :
    FrameInv s2 := by
  unfold FrameInv at *
  cases ht with
  | videoRun task enc frame out conv i420 rgba hth hout hfr =>
    rcases hfr with hfr | hfr
    · exact hfr
    · exact hfr.trans h
  | _ => exact h

theorem run_frame (env : Env) (conf : fcWebMConfig) (gd : Bool) (events : List Event) :
    FrameInv (run env (fcWebMContext.create env conf gd) events) :=
  run_induction env FrameInv (fun t e h => frameInv_step (step_trans env t e) h) events _ rfl


/-! ## Task queue and worker -/

/-- C1 (drain on shutdown), evaluated on two schedules.  In `shutdownSchedule` the worker
is running the first of two enqueued tasks when `m_stop` is raised: it finishes that task,
finds `!m_stop` false at the top of its loop and returns, the flush task still queued.  In
`earlyShutdownSchedule` the worker first evaluates its loop condition after `m_stop` was
raised and returns without running any of the three enqueued tasks. -/
theorem shutdown_leaves_tasks_queued :
    (run sampleEnv sampleCtx shutdownSchedule).m_video_thread = .exited ∧
    (run sampleEnv sampleCtx shutdownSchedule).m_video_tasks = [.flush] ∧
    (run sampleEnv sampleCtx shutdownSchedule).video_kicked.length = 2 ∧
    (run sampleEnv sampleCtx shutdownSchedule).video_done.length = 1 ∧
    (run sampleEnv sampleCtx earlyShutdownSchedule).m_video_thread = .exited ∧
    (run sampleEnv sampleCtx earlyShutdownSchedule).m_video_tasks.length = 3 ∧
    (run sampleEnv sampleCtx earlyShutdownSchedule).video_kicked.length = 3 ∧
    (run sampleEnv sampleCtx earlyShutdownSchedule).video_done.length = 0 := by
  decide

/-- C3 (pool boundedness): in every state reachable from construction with video enabled,
the identities of the buffers in the video pool together with those held by producers
inside an ingestion call, by the task being run and by queued tasks are exactly the four
buffers the pool was filled with; so their number is 4, at most 4 are outstanding, and with 4
outstanding `pop` yields nothing and an ingestion call stays at its `pop()`.  Likewise for
the audio pool.  `ResourceQueue::pop` yields a buffer exactly when the pool is non-empty. -/
theorem pool_boundedness (env : Env) (conf : fcWebMConfig) (gd : Bool)
    (events : List Event) :
    let s := run env (fcWebMContext.create env conf gd) events
    (conf.video = true →
      ((s.m_video_buffers.m_resources ++ s.videoOutstanding).map (·.id)).Perm [0, 1, 2, 3] ∧
      s.m_video_buffers.m_resources.length + s.videoOutstanding.length = 4 ∧
      s.videoOutstanding.length ≤ 4 ∧
      (s.videoOutstanding.length = 4 →
        s.m_video_buffers.pop = none ∧
        (∀ pixels fmt ts, step env s (.enterPixels pixels fmt ts) = s) ∧
        (∀ tex fmt ts, step env s (.enterTexture tex fmt ts) = s))) ∧
    (conf.audio = true →
      ((s.m_audio_buffers.m_resources ++ s.audioOutstanding).map (·.id)).Perm [4, 5, 6, 7] ∧
      s.m_audio_buffers.m_resources.length + s.audioOutstanding.length = 4 ∧
      s.audioOutstanding.length ≤ 4 ∧
      (s.audioOutstanding.length = 4 →
        s.m_audio_buffers.pop = none ∧
        (∀ samples n ts, step env s (.enterAudio samples n ts) = s))) ∧
    (∀ q : ResourceQueue Buffer, q.pop.isSome = true ↔ q.m_resources ≠ []) := by
  intro s
  obtain ⟨hv, ha⟩ := run_pool env conf gd events
  have hconf : s.m_conf = conf := run_m_conf env events _
  have hpop : ∀ q : ResourceQueue Buffer, q.m_resources = [] → q.pop = none := by
    intro q hq
    simp [ResourceQueue.pop, hq]
  refine ⟨fun hvid => ?_, fun haud => ?_, fun q => ?_⟩
  · change ((s.m_video_buffers.m_resources ++ s.videoOutstanding).map (·.id)).Perm _ at hv
    rw [hconf, hvid] at hv
    have hlen := hv.length_eq
    simp only [List.length_map, List.length_append, if_true, List.length_cons,
      List.length_nil] at hlen
    refine ⟨hv, hlen, by omega, fun h4 => ?_⟩
    have hempty : s.m_video_buffers.m_resources = [] :=
      List.length_eq_zero.mp (by omega)
    have hnone := hpop _ hempty
    refine ⟨hnone, fun pixels fmt ts => ?_, fun tex fmt ts => ?_⟩
    · simp only [step, fcWebMContext.addVideoFramePixels_begin, hnone]
      split_ifs <;> rfl
    · simp only [step, fcWebMContext.addVideoFrameTexture_begin, hnone]
      split_ifs <;> rfl
  · change ((s.m_audio_buffers.m_resources ++ s.audioOutstanding).map (·.id)).Perm _ at ha
    rw [hconf, haud] at ha
    have hlen := ha.length_eq
    simp only [List.length_map, List.length_append, if_true, List.length_cons,
      List.length_nil] at hlen
    refine ⟨ha, hlen, by omega, fun h4 => ?_⟩
    have hempty : s.m_audio_buffers.m_resources = [] :=
      List.length_eq_zero.mp (by omega)
    have hnone := hpop _ hempty
    refine ⟨hnone, fun samples n ts => ?_⟩
    simp only [step, fcWebMContext.addAudioFrame_begin, hnone]
    split_ifs <;> rfl
  · cases hq : q.m_resources.getLast? with
    | none =>
      have : q.m_resources = [] := List.getLast?_eq_none_iff.mp hq
      simp [ResourceQueue.pop, hq, this]
    | some b =>
      have : q.m_resources ≠ [] := by
        intro h
        rw [h] at hq
        simp at hq
      simp [ResourceQueue.pop, hq, this]

/-- C3 at a concrete run: after `saturatingSchedule` four video buffers are outstanding,
the pool yields nothing and a fifth producer entering `addVideoFramePixels` does not get
past `pop()`. -/
theorem pool_boundedness_witness :
    sampleConf.video = true ∧
      (run sampleEnv sampleCtx saturatingSchedule).videoOutstanding.length = 4 ∧
      (run sampleEnv sampleCtx saturatingSchedule).m_video_buffers.pop = none ∧
      step sampleEnv (run sampleEnv sampleCtx saturatingSchedule) (.enterPixels 5000 .RGBAu8 0)
        = run sampleEnv sampleCtx saturatingSchedule :=
  ⟨rfl, by decide,
    (((pool_boundedness sampleEnv sampleConf true saturatingSchedule).1 rfl).2.2.2
      (by decide)).1,
    (((pool_boundedness sampleEnv sampleConf true saturatingSchedule).1 rfl).2.2.2
      (by decide)).2.1 5000 .RGBAu8 0⟩

/-! ## The duration handed to the codec -/

theorem truncQ_intCast (n : Int) : truncQ (n : ℚ) = n := by
  simp [truncQ]

theorem roundHalfEven_of_near (q : ℚ) (n : Int) (h1 : (n : ℚ) - 1 / 2 < q)
    (h2 : q < n + 1 / 2) : roundHalfEven q = n := by
  unfold roundHalfEven
  rcases le_or_lt (n : ℚ) q with h | h
  · have hf : ⌊q⌋ = n := Int.floor_eq_iff.mpr ⟨h, by linarith⟩
    simp only [hf]
    rw [if_pos (by linarith)]
  · have hf : ⌊q⌋ = n - 1 :=
      Int.floor_eq_iff.mpr ⟨by push_cast; linarith, by push_cast; linarith⟩
    simp only [hf]
    rw [if_neg (by push_cast; linarith), if_pos (by push_cast; linarith)]
    omega

theorem roundHalfEven_nonneg (q : ℚ) (h : 0 ≤ q) : 0 ≤ roundHalfEven q := by
  have hf : 0 ≤ ⌊q⌋ := Int.floor_nonneg.mpr h
  unfold roundHalfEven
  simp only
  split_ifs <;> omega

theorem roundDouble_nonneg (x : ℚ) (h : 0 ≤ x) : 0 ≤ roundDouble x := by
  unfold roundDouble
  have hp : (0 : ℚ) < 2 ^ ulpExponent x := zpow_pos (by norm_num) _
  have : 0 ≤ roundHalfEven (x / 2 ^ ulpExponent x) :=
    roundHalfEven_nonneg _ (div_nonneg h (le_of_lt hp))
  exact mul_nonneg (by exact_mod_cast this) (le_of_lt hp)

theorem roundDouble_zero : roundDouble 0 = 0 := by
  unfold roundDouble
  rw [zero_div, roundHalfEven_of_near 0 0 (by norm_num) (by norm_num)]
  simp

theorem log2_eq (a : ℚ) (k : Int) (h1 : (2 : ℚ) ^ k ≤ a) (h2 : a < (2 : ℚ) ^ (k + 1)) :
    Int.log 2 a = k := by
  have h0 : 0 < a := lt_of_lt_of_le (zpow_pos (by norm_num) _) h1
  have hb : 1 < 2 := by norm_num
  have l1 : k ≤ Int.log 2 a := (Int.zpow_le_iff_le_log hb h0).mp (by exact_mod_cast h1)
  have l2 : Int.log 2 a < k + 1 := (Int.lt_zpow_iff_log_lt hb h0).mp (by exact_mod_cast h2)
  omega

/-- The value of `roundDouble x`, from the binade `2^k ≤ |x| < 2^(k+1)` of `x` and the
integer `n` within one half of `x / 2^e`, `e` being the exponent of the last place. -/
theorem roundDouble_eq (x : ℚ) (k e n : Int) (h1 : (2 : ℚ) ^ k ≤ |x|)
    (h2 : |x| < (2 : ℚ) ^ (k + 1)) (he : e = max (k - 52) (-1074))
    (hn1 : (n : ℚ) - 1 / 2 < x / 2 ^ e) (hn2 : x / 2 ^ e < n + 1 / 2) :
    roundDouble x = n * 2 ^ e := by
  have hu : ulpExponent x = e := by
    unfold ulpExponent
    rw [log2_eq _ k h1 h2, he]
  unfold roundDouble
  rw [hu, roundHalfEven_of_near _ n hn1 hn2]

theorem encodeDuration_self (t : fcTime) : encodeDuration t t = 16666666 := by
  simp [encodeDuration, roundDouble_zero, toUint32, truncQ]

theorem encode_encoder (codec : List VpxCall → VpxResult) (enc : fcVPXEncoder)
    (dst : fcVPXFrame) (image : fcI420Data) (t : fcTime) (kf : Bool) :
    (enc.encode codec dst image t kf).2.1 =
      { enc with
        m_prev_timestamp := t
        m_vpx_img := image
        m_vpx_ctx := enc.m_vpx_ctx ++
          [{ img := some image
             pts := toInt64 (toUint64 (roundDouble (t * 1000000000)))
             duration := encodeDuration enc.m_prev_timestamp t
             flags := if kf then 0 ||| VPX_EFLAG_FORCE_KF else 0 }] } := by
  unfold fcVPXEncoder.encode
  cases kf <;> simp only [Bool.false_eq_true, if_true, if_false] <;> split <;> rfl

theorem encode_lastDuration (codec : List VpxCall → VpxResult) (enc : fcVPXEncoder)
    (dst : fcVPXFrame) (image : fcI420Data) (t : fcTime) (kf : Bool) :
    (enc.encode codec dst image t kf).2.1.lastDuration
        = some (encodeDuration enc.m_prev_timestamp t) ∧
      (enc.encode codec dst image t kf).2.1.m_prev_timestamp = t := by
  rw [encode_encoder]
  simp [fcVPXEncoder.lastDuration]

/-- C4 (negative delta), evaluated on out-of-order timestamps: a call with timestamp 1 s
followed by a call with timestamp 0 s hands the codec the duration 3294967296, which is
`-1000000000` reduced modulo `2^32`, and not the nominal 16666666: the only guard of the
source is `duration == 0`. -/
theorem negative_delta_not_defaulted :
    (((fcVPXEncoder.create { width := 4, height := 2, target_bitrate := 1000 } .VP9).encode
          sampleEnv.vpx_codec_encode { data := [], blocks := [] } sampleEnv.i420_planes 1 false
        ).2.1.encode
          sampleEnv.vpx_codec_encode { data := [], blocks := [] } sampleEnv.i420_planes 0 false
      ).2.1.lastDuration = some 3294967296 := by
  rw [(encode_lastDuration _ _ _ _ _ _).1, (encode_lastDuration _ _ _ _ _ _).2]
  have hsub : roundDouble ((0 : ℚ) - 1) = -1 := by
    rw [roundDouble_eq _ 0 (-52) (-4503599627370496) (by norm_num) (by norm_num)
      (by decide) (by norm_num) (by norm_num)]
    norm_num
  have hmul : roundDouble ((-1 : ℚ) * 1000000000) = ((-1000000000 : Int) : ℚ) := by
    rw [roundDouble_eq _ 29 (-23) (-8388608000000000) (by norm_num) (by norm_num)
      (by decide) (by norm_num) (by norm_num)]
    norm_num
  simp only [encodeDuration, toUint32, hsub, hmul, truncQ_intCast]
  decide

/-- C5 (duration default): of two consecutive `encode` calls with the same timestamp `t`
the second hands the codec the duration `1000000000 / 60 = 16666666`; so does the very
first call of an encoder when its timestamp is 0. -/
theorem duration_default (codec : List VpxCall → VpxResult) (enc : fcVPXEncoder)
    (dst1 dst2 : fcVPXFrame) (image1 image2 : fcI420Data) (kf1 kf2 : Bool) (t : fcTime)
    (conf : fcVPXEncoderConfig) (variant : fcWebMVideoEncoder) :
    ((enc.encode codec dst1 image1 t kf1).2.1.encode codec dst2 image2 t kf2).2.1.lastDuration
        = some 16666666 ∧
      ((fcVPXEncoder.create conf variant).encode codec dst1 image1 0 kf1).2.1.lastDuration
        = some 16666666 ∧
      (1000000000 / 60 : Nat) = 16666666 := by
  refine ⟨?_, ?_, by decide⟩
  · rw [(encode_lastDuration _ _ _ _ _ _).1, (encode_lastDuration _ _ _ _ _ _).2,
      encodeDuration_self]
  · rw [(encode_lastDuration _ _ _ _ _ _).1]
    exact congrArg some (encodeDuration_self 0)

/-! ## Ingestion of audio samples -/

/-- C6 as stated fails: with an audio encoder configured and the pool filled, `addAudioFrame`
called with a non-null pointer and `num_samples = 0` returns `true` and leaves one task, with
a buffer of size 0, in the audio queue. -/
theorem zero_samples_accepted_example :
    ∃ s, sampleCtx.addAudioFrame 5000 0 0 = some (true, s) ∧
      sampleCtx.m_audio_tasks = [] ∧
      s.m_audio_tasks = [.frame { id := 7, data := 32768, size := 0 }] :=
  ⟨_, rfl, rfl, by decide⟩

/-- C6 amended: `addAudioFrame` has no check of `num_samples`: called with a non-null
pointer and `num_samples = 0`, with an audio encoder configured and a buffer in the pool, it
returns `true`, having taken the last buffer of the pool, given it size 0 and appended exactly
one task holding it to the audio queue. -/
theorem zero_samples_accepted (self : fcWebMContext) (samples : Ptr) (timestamp : fcTime)
    (front : List Buffer) (buf : Buffer)
    (hs : samples ≠ 0) (henc : self.m_audio_encoder ≠ none)
    (hpool : self.m_audio_buffers.m_resources = front ++ [buf]) :
    self.addAudioFrame samples 0 timestamp =
      some (true,
        { self with
          m_audio_buffers := { m_resources := front }
          m_audio_tasks := self.m_audio_tasks ++ [.frame { buf with size := 0 }]
          audio_kicked := self.audio_kicked ++ [.frame { buf with size := 0 }] }) := by
  have hnone : self.m_audio_encoder.isNone = false := by
    cases h : self.m_audio_encoder with
    | none => exact absurd h henc
    | some e => rfl
  have hpop : self.m_audio_buffers.pop = some (buf, { m_resources := front }) := by
    simp [ResourceQueue.pop, hpool]
  simp [fcWebMContext.addAudioFrame, fcWebMContext.addAudioFrame_begin, hs, hnone, hpop,
    fcWebMContext.addAudioFrame_end, fcWebMContext.kickAudioTask, Buffer.resize, toSizeT]

/-- C6 amended, at the freshly constructed `sampleCtx`. -/
theorem zero_samples_accepted_witness :
    (5000 : Ptr) ≠ 0 ∧ sampleCtx.m_audio_encoder ≠ none ∧
    (sampleCtx.addAudioFrame 5000 0 0).map (fun r => (r.1, r.2.m_audio_tasks.length))
      = some (true, 1) :=
  ⟨by decide, by decide, by
    rw [zero_samples_accepted sampleCtx 5000 0
      [{ id := 4, data := 20480, size := 0 }, { id := 5, data := 24576, size := 0 },
       { id := 6, data := 28672, size := 0 }] { id := 7, data := 32768, size := 0 }
      (by decide) (by decide) (by decide)]
    rfl⟩

/-! ## Running a task -/

theorem normalize_fields (self : fcWebMContext) (pixels : Ptr) (fmt : fcPixelFormat) :
    (self.normalize pixels fmt).2.m_video_encoder = self.m_video_encoder ∧
    (self.normalize pixels fmt).2.m_video_frame = self.m_video_frame ∧
    (self.normalize pixels fmt).2.m_writers = self.m_writers ∧
    (self.normalize pixels fmt).2.calls = self.calls ∧
    (self.normalize pixels fmt).2.m_video_buffers = self.m_video_buffers := by
  obtain ⟨conv, i420, rgba, h⟩ := normalize_shape self pixels fmt
  rw [h]
  exact ⟨rfl, rfl, rfl, rfl, rfl⟩

/-- What running a video task does to the writers, the frame and the pool, by the answer of
the encoder. -/
theorem videoTask_run_result (env : Env) (self : fcWebMContext) (task : VideoTask)
    (ok : Bool) (frame : fcVPXFrame) (h : task.encoderResult env self = some (ok, frame)) :
    (task.run env self).calls =
        (if ok then
          self.calls ++ self.m_writers.map (fun w => (w.id, WriterCall.addVideoFrame frame))
         else self.calls) ∧
      (task.run env self).m_video_frame = (if ok then frame.clear else frame) ∧
      (task.run env self).m_writers = self.m_writers ∧
      (task.run env self).m_video_buffers.m_resources =
        self.m_video_buffers.m_resources ++ task.buffer := by
  cases task with
  | frame buf fmt ts =>
    obtain ⟨he, hf, hw, hc, hb⟩ := normalize_fields self buf.data fmt
    simp only [VideoTask.encoderResult] at h
    simp only [VideoTask.run, fcWebMContext.addVideoFramePixelsImpl, VideoTask.buffer,
      ResourceQueue.push]
    rcases hn : self.normalize buf.data fmt with ⟨planes, s1⟩
    rw [hn] at h he hf hw hc hb
    simp only at h he hf hw hc hb
    simp only
    cases henc : s1.m_video_encoder with
    | none => simp [henc] at h
    | some enc =>
      simp only [henc, Option.map_some', Option.some.injEq, Prod.mk.injEq] at h
      obtain ⟨h1, h2⟩ := h
      simp only
      cases ok with
      | true => simp [h1, h2, fcWebMContext.eachStreams, hw, hc, hb]
      | false => simp [h1, h2, hw, hc, hb]
  | flush =>
    simp only [VideoTask.encoderResult] at h
    simp only [VideoTask.run, fcWebMContext.flushVideoTask, VideoTask.buffer]
    cases henc : self.m_video_encoder with
    | none => simp [henc] at h
    | some enc =>
      simp only [henc, Option.map_some', Option.some.injEq, Prod.mk.injEq] at h
      obtain ⟨h1, h2⟩ := h
      simp only
      cases ok with
      | true => simp [h1, h2, fcWebMContext.eachStreams]
      | false => simp [h1, h2]

/-- What running an audio task does to the writers, the frame and the pool, by the answer of
the encoder. -/
theorem audioTask_run_result (env : Env) (self : fcWebMContext) (task : AudioTask)
    (ok : Bool) (frame : fcWebMAudioFrame)
    (h : task.encoderResult env self = some (ok, frame)) :
    (task.run env self).calls =
        (if ok then
          self.calls ++ self.m_writers.map (fun w => (w.id, WriterCall.addAudioFrame frame))
         else self.calls) ∧
      (task.run env self).m_audio_frame = (if ok then frame.clear else frame) ∧
      (task.run env self).m_writers = self.m_writers ∧
      (task.run env self).m_audio_buffers.m_resources =
        self.m_audio_buffers.m_resources ++ task.buffer := by
  simp only [AudioTask.encoderResult] at h
  cases henc : self.m_audio_encoder with
  | none => simp [henc] at h
  | some enc =>
    simp only [henc, Option.map_some', Option.some.injEq] at h
    cases task with
    | frame buf =>
      simp only [AudioTask.call] at h
      simp only [AudioTask.run, fcWebMContext.audioCall, AudioTask.buffer, ResourceQueue.push,
        henc, h]
      cases ok with
      | true => simp [fcWebMContext.eachStreams]
      | false => simp
    | flush =>
      simp only [AudioTask.call] at h
      simp only [AudioTask.run, fcWebMContext.audioCall, AudioTask.buffer, henc, h]
      cases ok with
      | true => simp [fcWebMContext.eachStreams]
      | false => simp

theorem addOutputStream_calls (self : fcWebMContext) (stream : Nat) :
    (self.addOutputStream stream).m_writers =
        self.m_writers ++ [{ id := self.m_writers.length, stream := stream }] ∧
      ∀ c ∈ (self.addOutputStream stream).calls,
        c ∈ self.calls ∨ (c.2.isVideoFrame = false ∧ c.2.isAudioFrame = false) := by
  unfold fcWebMContext.addOutputStream
  cases hv : self.m_video_encoder <;> cases ha : self.m_audio_encoder <;>
    simp only [hv, ha] <;> refine ⟨trivial, fun c hc => ?_⟩
  · exact Or.inl hc
  · rcases List.mem_append.mp hc with h | h
    · exact Or.inl h
    · simp only [List.mem_singleton] at h
      subst h
      exact Or.inr ⟨rfl, rfl⟩
  · rcases List.mem_append.mp hc with h | h
    · exact Or.inl h
    · simp only [List.mem_singleton] at h
      subst h
      exact Or.inr ⟨rfl, rfl⟩
  · rcases List.mem_append.mp hc with h | h
    · rcases List.mem_append.mp h with h | h
      · exact Or.inl h
      · simp only [List.mem_singleton] at h
        subst h
        exact Or.inr ⟨rfl, rfl⟩
    · simp only [List.mem_singleton] at h
      subst h
      exact Or.inr ⟨rfl, rfl⟩

/-- The frame a successful video task fans out: the packets of the codec call the task
made, appended to what `m_video_frame` held. -/
theorem videoTask_success_frame (env : Env) (self : fcWebMContext) (task : VideoTask)
    (frame : fcVPXFrame) (h : task.encoderResult env self = some (true, frame)) :
    ∃ enc2, (task.run env self).m_video_encoder = some enc2 ∧
      frame = gatherFrameData (env.vpx_codec_encode enc2.m_vpx_ctx).pkts self.m_video_frame := by
  cases task with
  | frame buf fmt ts =>
    obtain ⟨he, hf, hw, hc, hb⟩ := normalize_fields self buf.data fmt
    simp only [VideoTask.encoderResult] at h
    simp only [VideoTask.run, fcWebMContext.addVideoFramePixelsImpl]
    rcases hn : self.normalize buf.data fmt with ⟨planes, s1⟩
    rw [hn] at h he hf hw hc hb
    simp only at h he hf hw hc hb
    simp only
    cases henc : s1.m_video_encoder with
    | none => simp [henc] at h
    | some enc =>
      simp only [henc, Option.map_some', Option.some.injEq, Prod.mk.injEq] at h
      obtain ⟨h1, h2⟩ := h
      have hfr := encode_frame env.vpx_codec_encode enc s1.m_video_frame planes ts false
      rw [h1, h2, if_pos rfl] at hfr
      simp only [h1, if_true]
      refine ⟨_, rfl, ?_⟩
      rw [← hf]
      exact hfr
  | flush =>
    simp only [VideoTask.encoderResult] at h
    simp only [VideoTask.run, fcWebMContext.flushVideoTask]
    cases henc : self.m_video_encoder with
    | none => simp [henc] at h
    | some enc =>
      simp only [henc, Option.map_some', Option.some.injEq, Prod.mk.injEq] at h
      obtain ⟨h1, h2⟩ := h
      have hfr := flush_frame env.vpx_codec_encode enc self.m_video_frame
      rw [h1, h2, if_pos rfl] at hfr
      simp only [h1, if_true]
      exact ⟨_, rfl, hfr⟩

/-- The frame a successful audio task fans out: what the audio codec made of
`m_audio_frame` in the call the task made. -/
theorem audioTask_success_frame (env : Env) (self : fcWebMContext) (task : AudioTask)
    (ok : Bool) (frame : fcWebMAudioFrame)
    (h : task.encoderResult env self = some (ok, frame)) :
    ∃ enc2, (task.run env self).m_audio_encoder = some enc2 ∧
      frame = (env.audio_codec enc2.calls self.m_audio_frame).2 := by
  simp only [AudioTask.encoderResult] at h
  cases henc : self.m_audio_encoder with
  | none => simp [henc] at h
  | some enc =>
    simp only [henc, Option.map_some', Option.some.injEq] at h
    cases task with
    | frame buf =>
      simp only [AudioTask.call] at h
      simp only [AudioTask.run, fcWebMContext.audioCall, henc, h]
      cases ok <;> exact ⟨_, rfl, by simp [h]⟩
    | flush =>
      simp only [AudioTask.call] at h
      simp only [AudioTask.run, fcWebMContext.audioCall, henc, h]
      cases ok <;> exact ⟨_, rfl, by simp [h]⟩

theorem addOutputStream_fields (self : fcWebMContext) (stream : Nat) :
    (self.addOutputStream stream).m_video_frame = self.m_video_frame ∧
      (self.addOutputStream stream).m_audio_frame = self.m_audio_frame := by
  unfold fcWebMContext.addOutputStream
  cases hv : self.m_video_encoder <;> cases ha : self.m_audio_encoder <;> simp [hv, ha]


/-- C7 (multi-writer fan-out): in every state reachable from construction the writers carry
their registration indices `0, 1, ..` in order and `m_video_frame` is empty.  A video task
(encode or flush) for which the encoder reports success with frame `frame` makes exactly
one `addVideoFrame frame` call per registered writer, in registration order and nothing
else; `frame` holds the packets of the codec call of this task and no other; after the task
`m_video_frame` is the empty frame.  A writer registered by `addOutputStream` after the task
has run has received no `addVideoFrame` call, and the next successful task hands it, like
every other writer, a frame made of the packets of that task's codec call only: none of the
blocks of the earlier task.  Likewise for an audio task and `addAudioFrame`, the audio codec
being run on an empty frame by the task that follows. -/
theorem multi_writer_fan_out (env : Env) (conf : fcWebMConfig) (gd : Bool)
    (events : List Event) :
    let self := run env (fcWebMContext.create env conf gd) events
    self.m_writers.map (·.id) = List.range self.m_writers.length ∧
    self.m_video_frame = { data := [], blocks := [] } ∧
    (∀ (task : VideoTask) (frame : fcVPXFrame),
      task.encoderResult env self = some (true, frame) →
      (task.run env self).calls =
          self.calls ++ self.m_writers.map (fun w => (w.id, WriterCall.addVideoFrame frame)) ∧
        (task.run env self).calls.length = self.calls.length + self.m_writers.length ∧
        (task.run env self).m_video_frame = { data := [], blocks := [] } ∧
        (∃ enc2, (task.run env self).m_video_encoder = some enc2 ∧
          frame = gatherFrameData (env.vpx_codec_encode enc2.m_vpx_ctx).pkts
            { data := [], blocks := [] }) ∧
        ∀ (stream : Nat),
          ((task.run env self).addOutputStream stream).m_writers =
              self.m_writers ++ [{ id := self.m_writers.length, stream := stream }] ∧
            (∀ f : fcVPXFrame, (self.m_writers.length, WriterCall.addVideoFrame f) ∉
              ((task.run env self).addOutputStream stream).calls) ∧
            (∀ (task2 : VideoTask) (frame2 : fcVPXFrame),
              task2.encoderResult env ((task.run env self).addOutputStream stream)
                = some (true, frame2) →
              (task2.run env ((task.run env self).addOutputStream stream)).calls =
                  ((task.run env self).addOutputStream stream).calls ++
                    (self.m_writers ++
                        [({ id := self.m_writers.length, stream := stream } : Writer)]).map
                      (fun w => (w.id, WriterCall.addVideoFrame frame2)) ∧
                ∃ enc3,
                  (task2.run env ((task.run env self).addOutputStream stream)).m_video_encoder
                      = some enc3 ∧
                    frame2 = gatherFrameData (env.vpx_codec_encode enc3.m_vpx_ctx).pkts
                      { data := [], blocks := [] })) ∧
    (∀ (task : AudioTask) (frame : fcWebMAudioFrame),
      task.encoderResult env self = some (true, frame) →
      (task.run env self).calls =
          self.calls ++ self.m_writers.map (fun w => (w.id, WriterCall.addAudioFrame frame)) ∧
        (task.run env self).calls.length = self.calls.length + self.m_writers.length ∧
        (task.run env self).m_audio_frame = { data := [], blocks := [] } ∧
        ∀ (stream : Nat),
          ((task.run env self).addOutputStream stream).m_writers =
              self.m_writers ++ [{ id := self.m_writers.length, stream := stream }] ∧
            (∀ f : fcWebMAudioFrame, (self.m_writers.length, WriterCall.addAudioFrame f) ∉
              ((task.run env self).addOutputStream stream).calls) ∧
            (∀ (task2 : AudioTask) (frame2 : fcWebMAudioFrame),
              task2.encoderResult env ((task.run env self).addOutputStream stream)
                = some (true, frame2) →
              (task2.run env ((task.run env self).addOutputStream stream)).calls =
                  ((task.run env self).addOutputStream stream).calls ++
                    (self.m_writers ++
                        [({ id := self.m_writers.length, stream := stream } : Writer)]).map
                      (fun w => (w.id, WriterCall.addAudioFrame frame2)) ∧
                ∃ enc3,
                  (task2.run env ((task.run env self).addOutputStream stream)).m_audio_encoder
                      = some enc3 ∧
                    frame2 = (env.audio_codec enc3.calls { data := [], blocks := [] }).2)) := by
  intro self
  obtain ⟨hids, hcalls⟩ := run_writer env conf gd events
  have hempty : self.m_video_frame = { data := [], blocks := [] } :=
    run_frame env conf gd events
  have hfresh : ∀ (g : WriterCall) (c : Nat × WriterCall),
      c ∈ self.calls ++ self.m_writers.map (fun w => (w.id, g)) →
      c.1 ≠ self.m_writers.length := by
    intro g c hc
    rcases List.mem_append.mp hc with h | h
    · exact Nat.ne_of_lt (hcalls c h)
    · obtain ⟨w, hw, rfl⟩ := List.mem_map.mp h
      have hmem : w.id ∈ self.m_writers.map (·.id) := List.mem_map.mpr ⟨w, hw, rfl⟩
      rw [hids] at hmem
      exact Nat.ne_of_lt (List.mem_range.mp hmem)
  refine ⟨hids, hempty, fun task frame h => ?_, fun task frame h => ?_⟩
  · obtain ⟨h1, h2, h3, -⟩ := videoTask_run_result env self task true frame h
    simp only [if_true] at h1 h2
    have h2e : (task.run env self).m_video_frame = { data := [], blocks := [] } := h2
    obtain ⟨enc2, he2, hf2⟩ := videoTask_success_frame env self task frame h
    rw [hempty] at hf2
    refine ⟨h1, by simp [h1], h2e, ⟨enc2, he2, hf2⟩, fun stream => ?_⟩
    obtain ⟨hw, hc⟩ := addOutputStream_calls (task.run env self) stream
    rw [h3] at hw
    refine ⟨hw, fun f hmem => ?_, fun task2 frame2 hres => ?_⟩
    · rcases hc _ hmem with hold | ⟨hv, -⟩
      · rw [h1] at hold
        exact hfresh _ _ hold rfl
      · simp [WriterCall.isVideoFrame] at hv
    · obtain ⟨k1, -, -, -⟩ := videoTask_run_result env _ task2 true frame2 hres
      simp only [if_true] at k1
      obtain ⟨enc3, he3, hf3⟩ := videoTask_success_frame env _ task2 frame2 hres
      rw [(addOutputStream_fields (task.run env self) stream).1, h2e] at hf3
      rw [hw] at k1
      exact ⟨k1, enc3, he3, hf3⟩
  · obtain ⟨h1, h2, h3, -⟩ := audioTask_run_result env self task true frame h
    simp only [if_true] at h1 h2
    have h2e : (task.run env self).m_audio_frame = { data := [], blocks := [] } := h2
    refine ⟨h1, by simp [h1], h2e, fun stream => ?_⟩
    obtain ⟨hw, hc⟩ := addOutputStream_calls (task.run env self) stream
    rw [h3] at hw
    refine ⟨hw, fun f hmem => ?_, fun task2 frame2 hres => ?_⟩
    · rcases hc _ hmem with hold | ⟨-, ha⟩
      · rw [h1] at hold
        exact hfresh _ _ hold rfl
      · simp [WriterCall.isAudioFrame] at ha
    · obtain ⟨k1, -, -, -⟩ := audioTask_run_result env _ task2 true frame2 hres
      simp only [if_true] at k1
      obtain ⟨enc3, he3, hf3⟩ := audioTask_success_frame env _ task2 true frame2 hres
      rw [(addOutputStream_fields (task.run env self) stream).2, h2e] at hf3
      rw [hw] at k1
      exact ⟨k1, enc3, he3, hf3⟩

/-- C7 at a concrete state: with two writers registered, a successful flush task makes two
writer calls and leaves the frame empty; a third writer registered then receives, from the
next successful flush task, a frame of one block only. -/
theorem multi_writer_fan_out_witness :
    VideoTask.flush.encoderResult sampleEnv (run sampleEnv sampleCtx twoWriters)
        = some (true, sampleFrame) ∧
      (VideoTask.flush.run sampleEnv (run sampleEnv sampleCtx twoWriters)).calls.length
        = (run sampleEnv sampleCtx twoWriters).calls.length + 2 ∧
      (VideoTask.flush.run sampleEnv (run sampleEnv sampleCtx twoWriters)).m_video_frame
        = { data := [], blocks := [] } ∧
      VideoTask.flush.encoderResult sampleEnv
          ((VideoTask.flush.run sampleEnv (run sampleEnv sampleCtx twoWriters)).addOutputStream 3)
        = some (true, sampleFrame) ∧
      (2, WriterCall.addVideoFrame sampleFrame) ∈
        (VideoTask.flush.run sampleEnv
          ((VideoTask.flush.run sampleEnv
            (run sampleEnv sampleCtx twoWriters)).addOutputStream 3)).calls :=
  ⟨by decide,
    ((multi_writer_fan_out sampleEnv sampleConf true twoWriters).2.2.1 .flush sampleFrame
      (by decide)).2.1,
    ((multi_writer_fan_out sampleEnv sampleConf true twoWriters).2.2.1 .flush sampleFrame
      (by decide)).2.2.1,
    by decide,
    by
      have h := ((((multi_writer_fan_out sampleEnv sampleConf true twoWriters).2.2.1 .flush
        sampleFrame (by decide)).2.2.2.2 3).2.2 .flush sampleFrame (by decide)).1
      change (VideoTask.flush.run sampleEnv
        ((VideoTask.flush.run sampleEnv
          (run sampleEnv sampleCtx twoWriters)).addOutputStream 3)).calls = _ at h
      rw [h]
      simp only [List.mem_append, List.mem_map, Prod.mk.injEq, and_true, List.mem_singleton]
      exact Or.inr ⟨_, Or.inr rfl, by decide⟩⟩

theorem toInt32_of_range (n : Int) (h0 : 0 ≤ n) (h1 : n < 2147483648) : toInt32 n = n := by
  unfold toInt32
  omega

/-- C8 (I420 passthrough): with non-negative `video_width` and `video_height` whose product
is within the range of `int`, and a video encoder present, `addVideoFramePixelsImpl` called
with `fcPixelFormat_I420` and the pointer `base` computes the planes `base`,
`base + frameSize`, `base + frameSize + frameSize / 4`, `frameSize` being
`video_width * video_height`; these are the planes of the `vpx_codec_encode` call it makes;
no conversion routine is called and the scratch images are left as they were. -/
theorem i420_passthrough (env : Env) (self : fcWebMContext) (base : Ptr)
    (timestamp : fcTime) (enc : fcVPXEncoder)
    (hw : 0 ≤ self.m_conf.video_width) (hh : 0 ≤ self.m_conf.video_height)
    (hrange : self.m_conf.video_width * self.m_conf.video_height < 2147483648)
    (henc : self.m_video_encoder = some enc) :
    let frameSize := self.m_conf.video_width * self.m_conf.video_height
    let planes : fcI420Data :=
      { y := base, u := base + frameSize, v := base + frameSize + frameSize / 4 }
    let after := (self.addVideoFramePixelsImpl env base .I420 timestamp).2
    self.normalize base .I420 = (planes, self) ∧
      (∃ enc2, after.m_video_encoder = some enc2 ∧ enc2.m_vpx_img = planes ∧
        enc2.m_vpx_ctx.length = enc.m_vpx_ctx.length + 1 ∧
        enc2.m_vpx_ctx.getLast?.map (·.img) = some (some planes)) ∧
      after.conversions = self.conversions ∧
      after.m_i420_image = self.m_i420_image ∧
      after.m_rgba_image = self.m_rgba_image := by
  intro frameSize planes after
  have hfs : toInt32 (self.m_conf.video_width * self.m_conf.video_height) = frameSize :=
    toInt32_of_range _ (Int.mul_nonneg hw hh) hrange
  have hshift : frameSize >>> (2 : Nat) = frameSize / 4 := by
    rw [Int.shiftRight_eq_div_pow]
    rfl
  have hnorm : self.normalize base .I420 = (planes, self) := by
    simp only [fcWebMContext.normalize, if_true, hfs, hshift]
  have hafter : after =
      (self.addVideoFramePixelsImpl env base .I420 timestamp).2 := rfl
  simp only [fcWebMContext.addVideoFramePixelsImpl, hnorm, henc] at hafter
  refine ⟨hnorm, ?_⟩
  have henc2 := encode_encoder env.vpx_codec_encode enc self.m_video_frame planes timestamp false
  split_ifs at hafter with hok
  · rw [hafter]
    refine ⟨⟨_, rfl, ?_, ?_, ?_⟩, rfl, rfl, rfl⟩ <;> rw [henc2] <;> simp
  · rw [hafter]
    refine ⟨⟨_, rfl, ?_, ?_, ?_⟩, rfl, rfl, rfl⟩ <;> rw [henc2] <;> simp

/-- C8 at the freshly constructed `sampleCtx`, a 4 x 2 image at address 5000. -/
theorem i420_passthrough_witness :
    (sampleCtx.normalize 5000 .I420).1 = { y := 5000, u := 5008, v := 5010 } :=
  congrArg Prod.fst
    (i420_passthrough sampleEnv sampleCtx 5000 0
      (fcVPXEncoder.create { width := 4, height := 2, target_bitrate := 1000 } .VP9)
      (by decide) (by decide) (by decide) rfl).1

/-- What holds of a failing task whatever the state: when the worker is about to run a video
task for which the encoder reports failure, running it makes no call on any writer, appends
the buffer of the task (if it has one) to the pool and takes the worker back to the top of
its loop, the queue untouched.  Only with `m_stop` not raised do the next two steps of the
worker dequeue the next queued task and leave the worker about to run it.  Likewise for the
audio worker. -/
theorem encode_failure_dropped (env : Env) (self : fcWebMContext) :
    (∀ (task : VideoTask) (frame : fcVPXFrame),
      self.m_video_thread = .running task →
      task.encoderResult env self = some (false, frame) →
      (self.processVideoTasks env).calls = self.calls ∧
        (self.processVideoTasks env).m_video_buffers.m_resources =
          self.m_video_buffers.m_resources ++ task.buffer ∧
        (self.processVideoTasks env).m_video_thread = .loopTop ∧
        (self.processVideoTasks env).m_video_tasks = self.m_video_tasks ∧
        (self.m_stop = false → ∀ next rest, self.m_video_tasks = next :: rest →
          (((self.processVideoTasks env).processVideoTasks env).processVideoTasks env
              ).m_video_thread = .running next ∧
            (((self.processVideoTasks env).processVideoTasks env).processVideoTasks env
              ).m_video_tasks = rest)) ∧
    (∀ (task : AudioTask) (frame : fcWebMAudioFrame),
      self.m_audio_thread = .running task →
      task.encoderResult env self = some (false, frame) →
      (self.processAudioTasks env).calls = self.calls ∧
        (self.processAudioTasks env).m_audio_buffers.m_resources =
          self.m_audio_buffers.m_resources ++ task.buffer ∧
        (self.processAudioTasks env).m_audio_thread = .loopTop ∧
        (self.processAudioTasks env).m_audio_tasks = self.m_audio_tasks ∧
        (self.m_stop = false → ∀ next rest, self.m_audio_tasks = next :: rest →
          (((self.processAudioTasks env).processAudioTasks env).processAudioTasks env
              ).m_audio_thread = .running next ∧
            (((self.processAudioTasks env).processAudioTasks env).processAudioTasks env
              ).m_audio_tasks = rest)) := by
  refine ⟨fun task frame hth hres => ?_, fun task frame hth hres => ?_⟩
  · obtain ⟨hc, -, -, hb⟩ := videoTask_run_result env self task false frame hres
    obtain ⟨enc, fr, out, conv, i420, rgba, hrun, -, -⟩ := videoTask_run_shape env self task
    have hstep : self.processVideoTasks env =
        { task.run env self with
          m_video_thread := .loopTop
          video_done := (task.run env self).video_done ++
            [(task, (task.run env self).calls.drop self.calls.length)] } := by
      simp only [fcWebMContext.processVideoTasks, hth]
    have htasks : (task.run env self).m_video_tasks = self.m_video_tasks := by rw [hrun]
    have hstop : (task.run env self).m_stop = self.m_stop := by rw [hrun]
    refine ⟨by rw [hstep]; simpa using hc, by rw [hstep]; exact hb, by rw [hstep],
      by rw [hstep]; exact htasks, fun hs next rest hq => ?_⟩
    rw [hstep]
    simp [fcWebMContext.processVideoTasks, hstop, hs, htasks, hq]
  · obtain ⟨hc, -, -, hb⟩ := audioTask_run_result env self task false frame hres
    obtain ⟨enc, fr, out, hrun, -⟩ := audioTask_run_shape env self task
    have hstep : self.processAudioTasks env =
        { task.run env self with
          m_audio_thread := .loopTop
          audio_done := (task.run env self).audio_done ++
            [(task, (task.run env self).calls.drop self.calls.length)] } := by
      simp only [fcWebMContext.processAudioTasks, hth]
    have htasks : (task.run env self).m_audio_tasks = self.m_audio_tasks := by rw [hrun]
    have hstop : (task.run env self).m_stop = self.m_stop := by rw [hrun]
    refine ⟨by rw [hstep]; simpa using hc, by rw [hstep]; exact hb, by rw [hstep],
      by rw [hstep]; exact htasks, fun hs next rest hq => ?_⟩
    rw [hstep]
    simp [fcWebMContext.processAudioTasks, hstop, hs, htasks, hq]

/-- At `busyCtx`, `m_stop` not raised: the encoder fails on the first frame, and three steps
of the worker later the second frame is about to be run. -/
theorem encode_failure_dropped_witness :
    busyCtx.m_video_thread = .running (.frame { id := 3, data := 16384, size := 32 } .I420 0) ∧
      (VideoTask.frame { id := 3, data := 16384, size := 32 } .I420 0).encoderResult
          failingEnv busyCtx = some (false, { data := [], blocks := [] }) ∧
      busyCtx.m_stop = false ∧
      (((busyCtx.processVideoTasks failingEnv).processVideoTasks failingEnv).processVideoTasks
          failingEnv).m_video_thread
        = .running (.frame { id := 2, data := 12288, size := 32 } .I420 1) :=
  ⟨by decide, by decide, by decide,
    (((encode_failure_dropped failingEnv busyCtx).1
        (.frame { id := 3, data := 16384, size := 32 } .I420 0) { data := [], blocks := [] }
        (by decide) (by decide)).2.2.2.2 (by decide)
      (.frame { id := 2, data := 12288, size := 32 } .I420 1) [] (by decide)).1⟩

/-- C9 (encode failure), evaluated at a shutdown.  After `busyCtx` and the first three
events of `failureShutdownSchedule` the worker is about to run the first frame, on which the
encoder fails, and `m_stop` is raised.  The failing task makes no writer call and its buffer
(3) goes back to the pool, but the worker does not go on to the next queued task: it finds
`!m_stop` false at the top of its loop and returns, the second frame and the flush task
still queued and buffer 2 never returned to the pool. -/
theorem encode_failure_then_stop :
    (run failingEnv busyCtx [.flushVideo, .flushAudio, .stop]).m_video_thread
        = .running (.frame { id := 3, data := 16384, size := 32 } .I420 0) ∧
      (VideoTask.frame { id := 3, data := 16384, size := 32 } .I420 0).encoderResult failingEnv
          (run failingEnv busyCtx [.flushVideo, .flushAudio, .stop])
        = some (false, { data := [], blocks := [] }) ∧
      (run failingEnv busyCtx failureShutdownSchedule).calls = [] ∧
      (run failingEnv busyCtx failureShutdownSchedule).m_video_thread = .exited ∧
      (run failingEnv busyCtx failureShutdownSchedule).m_video_tasks
        = [.frame { id := 2, data := 12288, size := 32 } .I420 1, .flush] ∧
      (run failingEnv busyCtx failureShutdownSchedule).video_done.map Prod.fst
        = [.frame { id := 3, data := 16384, size := 32 } .I420 0] ∧
      (run failingEnv busyCtx failureShutdownSchedule).m_video_buffers.m_resources.map (·.id)
        = [0, 1, 3] := by
  decide

/-! ## Ingestion of a texture -/

/-- C10 (texture readback): `addVideoFrameTexture` returns `false`, the context unchanged,
when the handle is null, no video encoder is configured or there is no graphics device.
Otherwise, with the pool holding `front ++ [buf]`, the buffer `buf` is taken and resized and
`readTexture` is called on it: when that fails the call returns `false`, the task queue is
as before and the pool holds `front` followed by the resized `buf`, the same buffers as
before; when it succeeds the call returns `true` and exactly one task, holding the resized
`buf`, has been appended to the video queue. -/
theorem texture_readback_atomic (env : Env) (self : fcWebMContext) (tex : Ptr)
    (fmt : fcPixelFormat) (timestamp : fcTime) :
    ((tex = 0 ∨ self.m_video_encoder = none ∨ self.m_gdev = false) →
      self.addVideoFrameTexture env tex fmt timestamp = some (false, self)) ∧
    (∀ (front : List Buffer) (buf : Buffer),
      tex ≠ 0 → self.m_video_encoder ≠ none → self.m_gdev = true →
      self.m_video_buffers.m_resources = front ++ [buf] →
      (env.readTexture
            (self.reads ++ [self.readCall (buf.resize (self.videoSize env fmt)) tex fmt])
          = false →
        ∃ s, self.addVideoFrameTexture env tex fmt timestamp = some (false, s) ∧
          s.m_video_tasks = self.m_video_tasks ∧
          s.m_video_buffers.m_resources = front ++ [buf.resize (self.videoSize env fmt)] ∧
          s.m_video_buffers.m_resources.map (·.id)
            = self.m_video_buffers.m_resources.map (·.id) ∧
          s.m_video_buffers.m_resources.map (·.data)
            = self.m_video_buffers.m_resources.map (·.data)) ∧
      (env.readTexture
            (self.reads ++ [self.readCall (buf.resize (self.videoSize env fmt)) tex fmt])
          = true →
        ∃ s, self.addVideoFrameTexture env tex fmt timestamp = some (true, s) ∧
          s.m_video_tasks =
            self.m_video_tasks ++ [.frame (buf.resize (self.videoSize env fmt)) fmt timestamp] ∧
          s.m_video_buffers.m_resources = front)) := by
  constructor
  · intro h
    have : self.addVideoFrameTexture_begin tex = .rejected := by
      unfold fcWebMContext.addVideoFrameTexture_begin
      rcases h with h | h | h <;> simp [h]
    simp [fcWebMContext.addVideoFrameTexture, this]
  · intro front buf htex henc hgd hpool
    have hnone : self.m_video_encoder.isNone = false := by
      cases h : self.m_video_encoder with
      | none => exact absurd h henc
      | some e => rfl
    have hpop : self.m_video_buffers.pop = some (buf, { m_resources := front }) := by
      simp [ResourceQueue.pop, hpool]
    have hbegin : self.addVideoFrameTexture_begin tex =
        .acquired buf { self with m_video_buffers := { m_resources := front } } := by
      simp [fcWebMContext.addVideoFrameTexture_begin, htex, hnone, hgd, hpop]
    constructor
    · intro hread
      have hcall : self.addVideoFrameTexture env tex fmt timestamp =
          some (false,
            { self with
              m_video_buffers :=
                { m_resources := front ++ [buf.resize (self.videoSize env fmt)] }
              reads := self.reads ++
                [self.readCall (buf.resize (self.videoSize env fmt)) tex fmt] }) := by
        simp only [fcWebMContext.addVideoFrameTexture, hbegin,
          fcWebMContext.addVideoFrameTexture_end]
        rw [if_neg]
        · rfl
        · simpa [fcWebMContext.videoSize, fcWebMContext.readCall] using hread
      exact ⟨_, hcall, rfl, rfl, by simp [hpool, Buffer.resize],
        by simp [hpool, Buffer.resize]⟩
    · intro hread
      have hcall : self.addVideoFrameTexture env tex fmt timestamp =
          some (true,
            { self with
              m_video_buffers := { m_resources := front }
              reads := self.reads ++
                [self.readCall (buf.resize (self.videoSize env fmt)) tex fmt]
              m_video_tasks := self.m_video_tasks ++
                [.frame (buf.resize (self.videoSize env fmt)) fmt timestamp]
              video_kicked := self.video_kicked ++
                [.frame (buf.resize (self.videoSize env fmt)) fmt timestamp] }) := by
        simp only [fcWebMContext.addVideoFrameTexture, hbegin,
          fcWebMContext.addVideoFrameTexture_end]
        rw [if_pos]
        · rfl
        · simpa [fcWebMContext.videoSize, fcWebMContext.readCall] using hread
      exact ⟨_, hcall, rfl, rfl⟩

/-- C10 at a freshly constructed context whose graphics device fails to read: the call
returns `false` and leaves the queue empty. -/
theorem texture_readback_atomic_witness :
    (7000 : Ptr) ≠ 0 ∧
      ((fcWebMContext.create failingEnv sampleConf true).addVideoFrameTexture failingEnv 7000
          .RGBAu8 0).map (fun r => (r.1, r.2.m_video_tasks.length)) = some (false, 0) :=
  ⟨by decide, by
    obtain ⟨s, h, ht, -⟩ :=
      ((texture_readback_atomic failingEnv (fcWebMContext.create failingEnv sampleConf true)
          7000 .RGBAu8 0).2
        [{ id := 0, data := 4096, size := 0 }, { id := 1, data := 8192, size := 0 },
         { id := 2, data := 12288, size := 0 }] { id := 3, data := 16384, size := 0 }
        (by decide) (by decide) (by decide) (by decide)).1 rfl
    rw [h, Option.map_some', ht]
    rfl⟩

/-! ## Ingestion of pixels and samples -/

theorem pop_concat (front : List Buffer) (buf : Buffer) :
    ResourceQueue.pop { m_resources := front ++ [buf] } = some (buf, { m_resources := front }) := by
  simp [ResourceQueue.pop]

theorem pop_nil : ResourceQueue.pop ({ m_resources := [] } : ResourceQueue Buffer) = none := rfl

theorem isNone_false_of_ne {α : Type} (o : Option α) (h : o ≠ none) : o.isNone = false := by
  cases o with
  | none => exact absurd rfl h
  | some a => rfl

theorem addVideoFramePixels_rejected (env : Env) (self : fcWebMContext) (pixels : Ptr)
    (fmt : fcPixelFormat) (ts : fcTime) (h : pixels = 0 ∨ self.m_video_encoder = none) :
    self.addVideoFramePixels env pixels fmt ts = some (false, self) := by
  have : self.addVideoFramePixels_begin pixels = .rejected := by
    unfold fcWebMContext.addVideoFramePixels_begin
    rcases h with h | h <;> simp [h]
  simp [fcWebMContext.addVideoFramePixels, this]

theorem addVideoFramePixels_accepted (env : Env) (self : fcWebMContext) (pixels : Ptr)
    (fmt : fcPixelFormat) (ts : fcTime) (front : List Buffer) (buf : Buffer)
    (hp : pixels ≠ 0) (henc : self.m_video_encoder ≠ none)
    (hpool : self.m_video_buffers = { m_resources := front ++ [buf] }) :
    self.addVideoFramePixels env pixels fmt ts =
      some (true,
        { self with
          m_video_buffers := { m_resources := front }
          m_video_tasks := self.m_video_tasks ++
            [.frame (buf.resize (self.videoSize env fmt)) fmt ts]
          video_kicked := self.video_kicked ++
            [.frame (buf.resize (self.videoSize env fmt)) fmt ts] }) := by
  have hbegin : self.addVideoFramePixels_begin pixels =
      .acquired buf { self with m_video_buffers := { m_resources := front } } := by
    simp [fcWebMContext.addVideoFramePixels_begin, hp, isNone_false_of_ne _ henc, hpool,
      pop_concat]
  simp only [fcWebMContext.addVideoFramePixels, hbegin, fcWebMContext.addVideoFramePixels_end]
  rfl

theorem addVideoFramePixels_blocked (env : Env) (self : fcWebMContext) (pixels : Ptr)
    (fmt : fcPixelFormat) (ts : fcTime)
    (hp : pixels ≠ 0) (henc : self.m_video_encoder ≠ none)
    (hpool : self.m_video_buffers = { m_resources := [] }) :
    self.addVideoFramePixels env pixels fmt ts = none := by
  have hbegin : self.addVideoFramePixels_begin pixels = .blocked := by
    simp [fcWebMContext.addVideoFramePixels_begin, hp, isNone_false_of_ne _ henc, hpool,
      pop_nil]
  simp only [fcWebMContext.addVideoFramePixels, hbegin]

theorem addAudioFrame_rejected (self : fcWebMContext) (samples : Ptr) (n : Int)
    (ts : fcTime) (h : samples = 0 ∨ self.m_audio_encoder = none) :
    self.addAudioFrame samples n ts = some (false, self) := by
  have : self.addAudioFrame_begin samples = .rejected := by
    unfold fcWebMContext.addAudioFrame_begin
    rcases h with h | h <;> simp [h]
  simp [fcWebMContext.addAudioFrame, this]

theorem addAudioFrame_accepted (self : fcWebMContext) (samples : Ptr) (n : Int)
    (ts : fcTime) (front : List Buffer) (buf : Buffer)
    (hp : samples ≠ 0) (henc : self.m_audio_encoder ≠ none)
    (hpool : self.m_audio_buffers = { m_resources := front ++ [buf] }) :
    self.addAudioFrame samples n ts =
      some (true,
        { self with
          m_audio_buffers := { m_resources := front }
          m_audio_tasks := self.m_audio_tasks ++ [.frame (buf.resize (toSizeT n))]
          audio_kicked := self.audio_kicked ++ [.frame (buf.resize (toSizeT n))] }) := by
  have hbegin : self.addAudioFrame_begin samples =
      .acquired buf { self with m_audio_buffers := { m_resources := front } } := by
    simp [fcWebMContext.addAudioFrame_begin, hp, isNone_false_of_ne _ henc, hpool, pop_concat]
  simp only [fcWebMContext.addAudioFrame, hbegin, fcWebMContext.addAudioFrame_end]
  rfl

theorem addAudioFrame_blocked (self : fcWebMContext) (samples : Ptr) (n : Int)
    (ts : fcTime) (hp : samples ≠ 0) (henc : self.m_audio_encoder ≠ none)
    (hpool : self.m_audio_buffers = { m_resources := [] }) :
    self.addAudioFrame samples n ts = none := by
  have hbegin : self.addAudioFrame_begin samples = .blocked := by
    simp [fcWebMContext.addAudioFrame_begin, hp, isNone_false_of_ne _ henc, hpool, pop_nil]
  simp only [fcWebMContext.addAudioFrame, hbegin]

theorem pool_cases (q : ResourceQueue Buffer) :
    q = { m_resources := [] } ∨ ∃ front buf, q = { m_resources := front ++ [buf] } := by
  obtain ⟨l⟩ := q
  rcases List.eq_nil_or_concat l with h | ⟨front, buf, h⟩
  · exact Or.inl (by rw [h])
  · exact Or.inr ⟨front, buf, by rw [h]; simp⟩

/-- C11 (null input, disabled media type): `addVideoFramePixels` returns `false` exactly when
the pixel pointer is null or no video encoder is configured, and then the context (task
queues and pools included) is unchanged; when it returns `true` exactly one task has been
appended to the video queue, the audio queue untouched.  It does return: `false` under the
guard, `true` past the guard with a buffer in the pool; past the guard with an empty pool
`pop()` polls.  The same holds of `addAudioFrame`, for every `num_samples` (so for
`num_samples > 0`), with the sample pointer, the audio encoder, queue and pool. -/
theorem null_input_or_disabled (env : Env) (self : fcWebMContext) (pixels : Ptr)
    (fmt : fcPixelFormat) (ts : fcTime) (samples : Ptr) (num_samples : Int) (ats : fcTime) :
    (((∃ s, self.addVideoFramePixels env pixels fmt ts = some (false, s)) ↔
          (pixels = 0 ∨ self.m_video_encoder = none)) ∧
        (∀ s, self.addVideoFramePixels env pixels fmt ts = some (false, s) → s = self) ∧
        (∀ s, self.addVideoFramePixels env pixels fmt ts = some (true, s) →
          (∃ task, s.m_video_tasks = self.m_video_tasks ++ [task]) ∧
            s.m_video_tasks.length = self.m_video_tasks.length + 1 ∧
            s.m_audio_tasks = self.m_audio_tasks) ∧
        (pixels ≠ 0 → self.m_video_encoder ≠ none →
          (self.m_video_buffers.m_resources ≠ [] →
              ∃ s, self.addVideoFramePixels env pixels fmt ts = some (true, s)) ∧
            (self.m_video_buffers.m_resources = [] →
              self.addVideoFramePixels env pixels fmt ts = none))) ∧
      (((∃ s, self.addAudioFrame samples num_samples ats = some (false, s)) ↔
          (samples = 0 ∨ self.m_audio_encoder = none)) ∧
        (∀ s, self.addAudioFrame samples num_samples ats = some (false, s) → s = self) ∧
        (∀ s, self.addAudioFrame samples num_samples ats = some (true, s) →
          (∃ task, s.m_audio_tasks = self.m_audio_tasks ++ [task]) ∧
            s.m_audio_tasks.length = self.m_audio_tasks.length + 1 ∧
            s.m_video_tasks = self.m_video_tasks) ∧
        (samples ≠ 0 → self.m_audio_encoder ≠ none →
          (self.m_audio_buffers.m_resources ≠ [] →
              ∃ s, self.addAudioFrame samples num_samples ats = some (true, s)) ∧
            (self.m_audio_buffers.m_resources = [] →
              self.addAudioFrame samples num_samples ats = none))) := by
  constructor
  · by_cases hg : pixels = 0 ∨ self.m_video_encoder = none
    · have hcall := addVideoFramePixels_rejected env self pixels fmt ts hg
      refine ⟨⟨fun _ => hg, fun _ => ⟨self, hcall⟩⟩, fun s hs => ?_, fun s hs => ?_,
        fun hp henc => ?_⟩
      · rw [hcall] at hs
        simp only [Option.some.injEq, Prod.mk.injEq, true_and] at hs
        exact hs.symm
      · rw [hcall] at hs
        simp at hs
      · rcases hg with h | h
        · exact absurd h hp
        · exact absurd h henc
    · have hp : pixels ≠ 0 := fun h => hg (Or.inl h)
      have henc : self.m_video_encoder ≠ none := fun h => hg (Or.inr h)
      rcases pool_cases self.m_video_buffers with hpool | ⟨front, buf, hpool⟩
      · have hcall := addVideoFramePixels_blocked env self pixels fmt ts hp henc hpool
        refine ⟨⟨fun ⟨s, hs⟩ => ?_, fun h => absurd h hg⟩, fun s hs => ?_, fun s hs => ?_,
          fun _ _ => ⟨fun hne => ?_, fun _ => hcall⟩⟩
        · rw [hcall] at hs
          simp at hs
        · rw [hcall] at hs
          simp at hs
        · rw [hcall] at hs
          simp at hs
        · rw [hpool] at hne
          exact absurd rfl hne
      · have hcall :=
          addVideoFramePixels_accepted env self pixels fmt ts front buf hp henc hpool
        refine ⟨⟨fun ⟨s, hs⟩ => ?_, fun h => absurd h hg⟩, fun s hs => ?_, fun s hs => ?_,
          fun _ _ => ⟨fun _ => ⟨_, hcall⟩, fun he => ?_⟩⟩
        · rw [hcall] at hs
          simp at hs
        · rw [hcall] at hs
          simp at hs
        · rw [hcall] at hs
          simp only [Option.some.injEq, Prod.mk.injEq, true_and] at hs
          subst hs
          exact ⟨⟨_, rfl⟩, by simp, rfl⟩
        · rw [hpool] at he
          simp at he
  · by_cases hg : samples = 0 ∨ self.m_audio_encoder = none
    · have hcall := addAudioFrame_rejected self samples num_samples ats hg
      refine ⟨⟨fun _ => hg, fun _ => ⟨self, hcall⟩⟩, fun s hs => ?_, fun s hs => ?_,
        fun hp henc => ?_⟩
      · rw [hcall] at hs
        simp only [Option.some.injEq, Prod.mk.injEq, true_and] at hs
        exact hs.symm
      · rw [hcall] at hs
        simp at hs
      · rcases hg with h | h
        · exact absurd h hp
        · exact absurd h henc
    · have hp : samples ≠ 0 := fun h => hg (Or.inl h)
      have henc : self.m_audio_encoder ≠ none := fun h => hg (Or.inr h)
      rcases pool_cases self.m_audio_buffers with hpool | ⟨front, buf, hpool⟩
      · have hcall := addAudioFrame_blocked self samples num_samples ats hp henc hpool
        refine ⟨⟨fun ⟨s, hs⟩ => ?_, fun h => absurd h hg⟩, fun s hs => ?_, fun s hs => ?_,
          fun _ _ => ⟨fun hne => ?_, fun _ => hcall⟩⟩
        · rw [hcall] at hs
          simp at hs
        · rw [hcall] at hs
          simp at hs
        · rw [hcall] at hs
          simp at hs
        · rw [hpool] at hne
          exact absurd rfl hne
      · have hcall :=
          addAudioFrame_accepted self samples num_samples ats front buf hp henc hpool
        refine ⟨⟨fun ⟨s, hs⟩ => ?_, fun h => absurd h hg⟩, fun s hs => ?_, fun s hs => ?_,
          fun _ _ => ⟨fun _ => ⟨_, hcall⟩, fun he => ?_⟩⟩
        · rw [hcall] at hs
          simp at hs
        · rw [hcall] at hs
          simp at hs
        · rw [hcall] at hs
          simp only [Option.some.injEq, Prod.mk.injEq, true_and] at hs
          subst hs
          exact ⟨⟨_, rfl⟩, by simp, rfl⟩
        · rw [hpool] at he
          simp at he

/-- C11 at the freshly constructed `sampleCtx`: a non-null pixel pointer with the encoder
configured and the pool filled is accepted, a non-null sample pointer with 480 samples
likewise. -/
theorem null_input_or_disabled_witness :
    (5000 : Ptr) ≠ 0 ∧ sampleCtx.m_video_encoder ≠ none ∧
      sampleCtx.m_video_buffers.m_resources ≠ [] ∧
      (∃ s, sampleCtx.addVideoFramePixels sampleEnv 5000 .RGBAu8 0 = some (true, s)) ∧
      (6000 : Ptr) ≠ 0 ∧ sampleCtx.m_audio_encoder ≠ none ∧
      sampleCtx.m_audio_buffers.m_resources ≠ [] ∧
      (∃ s, sampleCtx.addAudioFrame 6000 480 0 = some (true, s)) :=
  ⟨by decide, by decide, by decide,
    ((null_input_or_disabled sampleEnv sampleCtx 5000 .RGBAu8 0 6000 480 0).1.2.2.2
      (by decide) (by decide)).1 (by decide),
    by decide, by decide, by decide,
    ((null_input_or_disabled sampleEnv sampleCtx 5000 .RGBAu8 0 6000 480 0).2.2.2.2
      (by decide) (by decide)).1 (by decide)⟩

/-! ## Presentation time and duration -/

theorem truncQ_of_nonneg (x : ℚ) (h : 0 ≤ x) : truncQ x = ⌊x⌋ := by
  unfold truncQ
  rw [Rat.floor_def, Int.tdiv_eq_ediv (Rat.num_nonneg.mpr h) (Int.natCast_nonneg _)]

theorem truncQ_neg (x : ℚ) : truncQ (-x) = -truncQ x := by
  simp [truncQ, Int.neg_tdiv]

theorem toUint32_of_range (x : ℚ) (h0 : 0 ≤ x) (h1 : x < 4294967296) :
    (toUint32 x : Int) = ⌊x⌋ := by
  have hf0 : 0 ≤ ⌊x⌋ := Int.floor_nonneg.mpr h0
  have hf1 : ⌊x⌋ < 4294967296 := Int.floor_lt.mpr (by exact_mod_cast h1)
  unfold toUint32
  rw [truncQ_of_nonneg x h0, Int.emod_eq_of_lt hf0 hf1, Int.toNat_of_nonneg hf0]

theorem pts_of_range (x : ℚ) (h0 : 0 ≤ x) (h1 : x < 9223372036854775808) :
    toInt64 (toUint64 x) = ⌊x⌋ := by
  have hf0 : 0 ≤ ⌊x⌋ := Int.floor_nonneg.mpr h0
  have hf1 : ⌊x⌋ < 9223372036854775808 := Int.floor_lt.mpr (by exact_mod_cast h1)
  unfold toInt64 toUint64
  rw [truncQ_of_nonneg x h0, Int.emod_eq_of_lt hf0 (by omega), Int.toNat_of_nonneg hf0]
  omega

theorem encode_lastPts (codec : List VpxCall → VpxResult) (enc : fcVPXEncoder)
    (dst : fcVPXFrame) (image : fcI420Data) (t : fcTime) (kf : Bool) :
    (enc.encode codec dst image t kf).2.1.lastPts
      = some (toInt64 (toUint64 (roundDouble (t * 1000000000)))) := by
  rw [encode_encoder]
  simp [fcVPXEncoder.lastPts]

theorem encodeTwice_lastDuration (prev t : fcTime) :
    (encodeTwice prev t).lastDuration = some (encodeDuration prev t) := by
  unfold encodeTwice
  rw [(encode_lastDuration _ _ _ _ _ _).1, (encode_lastDuration _ _ _ _ _ _).2]

theorem encodeTwice_lastPts (prev t : fcTime) :
    (encodeTwice prev t).lastPts
      = some (toInt64 (toUint64 (roundDouble (t * 1000000000)))) := by
  unfold encodeTwice
  rw [encode_lastPts]

/-- The double product of the double 0.0167 and `1000000000.0` is exactly 16700000. -/
theorem roundDouble_double0167_mul : roundDouble (double0167 * 1000000000) = 16700000 := by
  unfold double0167
  rw [roundDouble_eq _ 23 (-29) 8965744230400000 (by norm_num [abs_of_nonneg])
    (by norm_num [abs_of_nonneg]) (by decide) (by norm_num) (by norm_num)]
  norm_num

/-- Subtracting the double 0 from the double 0.0167 is exact. -/
theorem roundDouble_double0167_sub : roundDouble (double0167 - 0) = double0167 := by
  unfold double0167
  rw [roundDouble_eq _ (-6) (-58) 4813447281733586 (by norm_num [abs_of_nonneg])
    (by norm_num [abs_of_nonneg]) (by decide) (by norm_num) (by norm_num)]
  norm_num

theorem encodeDuration_double0167 : encodeDuration 0 double0167 = 16700000 := by
  have h : ((16700000 : ℚ)) = ((16700000 : Int) : ℚ) := by norm_num
  simp only [encodeDuration, roundDouble_double0167_sub, roundDouble_double0167_mul, toUint32,
    h, truncQ_intCast]
  decide

theorem pts_double0167 :
    toInt64 (toUint64 (roundDouble (double0167 * 1000000000))) = 16700000 := by
  have h : ((16700000 : ℚ)) = ((16700000 : Int) : ℚ) := by norm_num
  simp only [roundDouble_double0167_mul, toUint64, h, truncQ_intCast]
  decide

theorem floor_double0167 :
    ⌊double0167 * 1000000000⌋ = 16699999 ∧ ⌊(double0167 - 0) * 1000000000⌋ = 16699999 := by
  unfold double0167
  constructor <;> (rw [Int.floor_eq_iff]; norm_num)

theorem encodeDuration_sub_nanosecond : encodeDuration 0 (1 / 2147483648) = 16666666 := by
  have hsub : roundDouble ((1 / 2147483648 : ℚ) - 0) = 1 / 2147483648 := by
    rw [roundDouble_eq _ (-31) (-83) 4503599627370496 (by norm_num [abs_of_nonneg])
      (by norm_num [abs_of_nonneg]) (by decide) (by norm_num) (by norm_num)]
    norm_num
  have hmul : roundDouble ((1 / 2147483648 : ℚ) * 1000000000) = 1953125 / 4194304 := by
    rw [roundDouble_eq _ (-2) (-54) 8388608000000000 (by norm_num [abs_of_nonneg])
      (by norm_num [abs_of_nonneg]) (by decide) (by norm_num) (by norm_num)]
    norm_num
  have hfloor : ⌊(1953125 / 4194304 : ℚ)⌋ = 0 := by
    rw [Int.floor_eq_iff]
    norm_num
  simp only [encodeDuration, hsub, hmul, toUint32,
    truncQ_of_nonneg (1953125 / 4194304) (by norm_num), hfloor]
  decide

/-- C12 as stated fails on two counts.  After a call with timestamp 0, a call with the
double 0.0167 is handed the presentation time and the duration 16700000, while the floor
of the exact product of that double and `10^9` is 16699999: lines 91 and 93 truncate the
rounded double product.  And a call with timestamp `2^-31` s (0.47 ns later) is handed the
duration 16666666 while the floor is 0: the computed duration is 0 and the guard
`duration == 0` replaces it. -/
theorem conversion_not_floor :
    (0 : ℚ) < double0167 ∧
      (encodeTwice 0 double0167).lastPts = some 16700000 ∧
      ⌊double0167 * 1000000000⌋ = 16699999 ∧
      (encodeTwice 0 double0167).lastDuration = some 16700000 ∧
      ⌊(double0167 - 0) * 1000000000⌋ = 16699999 ∧
      (0 : ℚ) < 1 / 2147483648 ∧
      (encodeTwice 0 (1 / 2147483648)).lastDuration = some 16666666 ∧
      ⌊((1 / 2147483648 : ℚ) - 0) * 1000000000⌋ = 0 := by
  refine ⟨by unfold double0167; norm_num, ?_, floor_double0167.1, ?_, floor_double0167.2,
    by norm_num, ?_, ?_⟩
  · rw [encodeTwice_lastPts, pts_double0167]
  · rw [encodeTwice_lastDuration, encodeDuration_double0167]
  · rw [encodeTwice_lastDuration, encodeDuration_sub_nanosecond]
  · rw [Int.floor_eq_iff]
    norm_num

/-- Outside the range of the conversions: a delta of 5 s is handed on as the duration
705032704 (`5 * 10^9` reduced modulo `2^32`); the negative timestamp `-2^-31` s is handed on
as the presentation time 0 (truncation toward zero) while its floor is -1; the timestamp
`2^34` s, `2^34 * 10^9` ns being `2^63` at least, is handed on as a negative presentation
time. -/
theorem conversion_out_of_range :
    (encodeTwice 0 5).lastDuration = some 705032704 ∧
      ⌊((5 : ℚ) - 0) * 1000000000⌋ = 5000000000 ∧
      (encodeTwice (-1) (-1 / 2147483648)).lastPts = some 0 ∧
      ⌊(-1 / 2147483648 : ℚ) * 1000000000⌋ = -1 ∧
      (encodeTwice 0 17179869184).lastPts = some (-1266874889709551616) := by
  refine ⟨?_, ?_, ?_, ?_, ?_⟩
  · rw [encodeTwice_lastDuration]
    have hsub : roundDouble ((5 : ℚ) - 0) = 5 := by
      rw [roundDouble_eq _ 2 (-50) 5629499534213120 (by norm_num [abs_of_nonneg])
        (by norm_num [abs_of_nonneg]) (by decide) (by norm_num) (by norm_num)]
      norm_num
    have hmul : roundDouble ((5 : ℚ) * 1000000000) = ((5000000000 : Int) : ℚ) := by
      rw [roundDouble_eq _ 32 (-20) 5242880000000000 (by norm_num [abs_of_nonneg])
        (by norm_num [abs_of_nonneg]) (by decide) (by norm_num) (by norm_num)]
      norm_num
    simp only [encodeDuration, toUint32, hsub, hmul, truncQ_intCast]
    decide
  · rw [Int.floor_eq_iff]
    norm_num
  · rw [encodeTwice_lastPts]
    have hmul : roundDouble ((-1 / 2147483648 : ℚ) * 1000000000) = -(1953125 / 4194304) := by
      rw [roundDouble_eq _ (-2) (-54) (-8388608000000000) (by norm_num [abs_of_neg])
        (by norm_num [abs_of_neg]) (by decide) (by norm_num) (by norm_num)]
      norm_num
    have hfloor : ⌊(1953125 / 4194304 : ℚ)⌋ = 0 := by
      rw [Int.floor_eq_iff]
      norm_num
    simp only [toUint64, hmul, truncQ_neg, truncQ_of_nonneg (1953125 / 4194304) (by norm_num),
      hfloor]
    decide
  · rw [Int.floor_eq_iff]
    norm_num
  · rw [encodeTwice_lastPts]
    have hmul : roundDouble ((17179869184 : ℚ) * 1000000000)
        = ((17179869184000000000 : Int) : ℚ) := by
      rw [roundDouble_eq _ 63 11 8388608000000000 (by norm_num [abs_of_nonneg])
        (by norm_num [abs_of_nonneg]) (by decide) (by norm_num) (by norm_num)]
      norm_num
    simp only [toUint64, hmul, truncQ_intCast]
    decide

/-- C12 amended: for consecutive `encode` calls with timestamps `prev < t`, `0 ≤ t`, such
that the double product `t * 10^9` is below `2^63` and the double product of the double
difference `t - prev` and `10^9` is below `2^32`, the presentation time handed to the codec
is the floor of the double product `t * 10^9`, and the duration handed to the codec is the
floor of the double product `(t - prev) * 10^9` when that product is at least 1, and the
nominal 16666666 when it is below 1. -/
theorem timestamp_duration_conversion (codec : List VpxCall → VpxResult)
    (enc : fcVPXEncoder) (dst1 dst2 : fcVPXFrame) (image1 image2 : fcI420Data)
    (kf1 kf2 : Bool) (prev t : fcTime)
    (hlt : prev < t) (h0 : 0 ≤ t)
    (hpts : roundDouble (t * 1000000000) < 9223372036854775808)
    (hdur : roundDouble (roundDouble (t - prev) * 1000000000) < 4294967296) :
    ((enc.encode codec dst1 image1 prev kf1).2.1.encode codec dst2 image2 t kf2).2.1.lastPts
        = some ⌊roundDouble (t * 1000000000)⌋ ∧
      (1 ≤ roundDouble (roundDouble (t - prev) * 1000000000) →
        ((enc.encode codec dst1 image1 prev kf1).2.1.encode codec dst2 image2 t kf2
            ).2.1.lastDuration.map Int.ofNat
          = some ⌊roundDouble (roundDouble (t - prev) * 1000000000)⌋) ∧
      (roundDouble (roundDouble (t - prev) * 1000000000) < 1 →
        ((enc.encode codec dst1 image1 prev kf1).2.1.encode codec dst2 image2 t kf2
            ).2.1.lastDuration
          = some 16666666) := by
  have hx0 : 0 ≤ roundDouble (roundDouble (t - prev) * 1000000000) :=
    roundDouble_nonneg _
      (mul_nonneg (roundDouble_nonneg _ (sub_nonneg.mpr (le_of_lt hlt))) (by norm_num))
  have hconv := toUint32_of_range _ hx0 hdur
  have hlast :
      ((enc.encode codec dst1 image1 prev kf1).2.1.encode codec dst2 image2 t kf2
          ).2.1.lastDuration = some (encodeDuration prev t) := by
    rw [(encode_lastDuration _ _ _ _ _ _).1, (encode_lastDuration _ _ _ _ _ _).2]
  refine ⟨?_, fun h1 => ?_, fun h1 => ?_⟩
  · rw [encode_lastPts,
      pts_of_range _ (roundDouble_nonneg _ (mul_nonneg h0 (by norm_num))) hpts]
  · have hpos : 1 ≤ ⌊roundDouble (roundDouble (t - prev) * 1000000000)⌋ :=
      Int.le_floor.mpr (by exact_mod_cast h1)
    have hne : toUint32 (roundDouble (roundDouble (t - prev) * 1000000000)) ≠ 0 := by
      intro h
      rw [h] at hconv
      simp only [Nat.cast_zero] at hconv
      omega
    rw [hlast]
    simp only [encodeDuration, hne, if_false, Option.map_some', Option.some.injEq]
    exact hconv
  · have hzero : ⌊roundDouble (roundDouble (t - prev) * 1000000000)⌋ = 0 :=
      Int.floor_eq_iff.mpr ⟨by exact_mod_cast hx0, by simpa using h1⟩
    have h : toUint32 (roundDouble (roundDouble (t - prev) * 1000000000)) = 0 := by
      rw [hzero] at hconv
      exact_mod_cast hconv
    rw [hlast]
    simp only [encodeDuration, h, if_true]

/-- C12 amended, at the doubles 0.0 and 0.0167: the second call is handed the presentation
time 16700000 and the duration 16700000. -/
theorem timestamp_duration_conversion_witness :
    (0 : ℚ) < double0167 ∧
      roundDouble (double0167 * 1000000000) = 16700000 ∧
      roundDouble (roundDouble (double0167 - 0) * 1000000000) = 16700000 ∧
      (encodeTwice 0 double0167).lastPts = some 16700000 ∧
      (encodeTwice 0 double0167).lastDuration.map Int.ofNat = some 16700000 := by
  have hpos : (0 : ℚ) < double0167 := by unfold double0167; norm_num
  have hm := roundDouble_double0167_mul
  have hd : roundDouble (roundDouble (double0167 - 0) * 1000000000) = 16700000 := by
    rw [roundDouble_double0167_sub, roundDouble_double0167_mul]
  have h := timestamp_duration_conversion sampleEnv.vpx_codec_encode freshEncoder
    { data := [], blocks := [] } { data := [], blocks := [] } sampleEnv.i420_planes
    sampleEnv.i420_planes false false 0 double0167 hpos (le_of_lt hpos)
    (by rw [hm]; norm_num) (by rw [hd]; norm_num)
  rw [hm, hd] at h
  have hf : ⌊(16700000 : ℚ)⌋ = 16700000 := by
    rw [Int.floor_eq_iff]
    norm_num
  rw [hf] at h
  exact ⟨hpos, hm, hd, h.1, h.2.1 (by norm_num)⟩

end FrameCapturer
